import Mathlib

/-!
CP2110 HID USB-UART driver: report framing.

A shallow embedding of `src/cp2110.c`.

* C `int` values are `Int`; a store into a `uint8_t` or `uint16_t` object
  is written with an explicit `% 256` or `% 65536`.  Arguments of unsigned
  type (`pin`, `state`, `mode`, `baud`) and the non-negative `len` are
  natural numbers.
* Memory reached through a pointer (`tx_buf`, `rx_buf`, the local report
  buffer `buf`) is a function from byte offset to byte value.  A local
  buffer starts with arbitrary contents, which the functions take as the
  argument `buf0`.
* The HID library is an external collaborator: a state machine over a
  device state `σ` (the `handle`).  Every driver function returns, next to
  its C return value, the device state afterwards and the list of library
  calls it made.
* `cp2110.h` is not among the sources; its macros are the fields of
  `Header`.
-/

namespace CP2110

/-! ## Memory -/

/-- Bytes addressed by offset from a base pointer. -/
abbrev Mem := Nat → Nat

/-- Assignment `m[i] = v`. -/
def Mem.store (m : Mem) (i v : Nat) : Mem :=
  fun j => if j = i then v else m j

/-- The call `memcpy(dst + d, src + s, n)`: the new contents of `dst`. -/
def memcpy (dst : Mem) (d : Nat) (src : Mem) (s n : Nat) : Mem :=
  fun j => if d ≤ j ∧ j < d + n then src (s + (j - d)) else dst j

/-- The first `n` bytes of a buffer, as handed to the HID library. -/
def Mem.bytes (m : Mem) (n : Nat) : List Nat :=
  (List.range n).map m

/-- Overwrite the front of a buffer with the bytes of a response. -/
def Mem.fill (m : Mem) (l : List Nat) : Mem :=
  fun j => if j < l.length then l.getD j 0 else m j

/-! ## The header and the HID library -/

/-- The macros of `cp2110.h` that `cp2110.c` uses. -/
structure Header where
  REPORT_DATA_RX_TX_MAX : Nat
  REPORT_GET_SET_UART_ENABLE : Nat
  REPORT_SET_PURGE_FIFOS : Nat
  REPORT_GET_SET_UART_CONFIG : Nat
  REPORT_GET_GPIO_VALUES : Nat
  REPORT_SET_GPIO_VALUES : Nat
  REPORT_GET_SET_GPIO_CONFIG : Nat
  GPIO_ALTERNATE : Nat
  CP2110_GPIO0_MASK : Nat
  CP2110_GPIO1_MASK : Nat
  CP2110_GPIO2_MASK : Nat
  CP2110_GPIO3_MASK : Nat
  CP2110_GPIO4_MASK : Nat
  CP2110_GPIO5_MASK : Nat
  CP2110_GPIO6_MASK : Nat
  CP2110_GPIO7_MASK : Nat
  CP2110_GPIO8_MASK : Nat
  CP2110_GPIO9_MASK : Nat

/-- The four hidapi entry points the driver calls, over a device state `σ`.
A call that fills a buffer gets the buffer and the size passed and gives the
buffer back. -/
structure Transport (σ : Type) where
  hid_write : σ → List Nat → Int × σ
  hid_read : σ → Mem → Nat → Int × Mem × σ
  hid_send_feature_report : σ → List Nat → Int × σ
  hid_get_feature_report : σ → Mem → Nat → Int × Mem × σ

/-- One call into the HID library: the bytes of the buffer passed, whose
number is the size passed. -/
inductive Call where
  | hid_write (data : List Nat)
  | hid_read (buf : List Nat)
  | hid_send_feature_report (data : List Nat)
  | hid_get_feature_report (buf : List Nat)
  deriving DecidableEq

/-- The size argument of a library call. -/
def Call.size : Call → Nat
  | Call.hid_write data => data.length
  | Call.hid_read buf => buf.length
  | Call.hid_send_feature_report data => data.length
  | Call.hid_get_feature_report buf => buf.length

/-- What a driver function leaves behind: its return value, the device
state, and the library calls made, oldest first. -/
structure Out (σ : Type) where
  ret : Int
  dev : σ
  calls : List Call

/-- What `CP2110_read` leaves behind: as `Out`, with the destination buffer
and the `memcpy` calls made, each as (destination offset, byte count). -/
structure ReadOut (σ : Type) where
  ret : Int
  dev : σ
  calls : List Call
  rx_buf : Mem
  copies : List (Nat × Nat)

/-- What `CP2110_getUARTConfig` leaves behind: as `Out`, with the caller's
`config` buffer and the arguments of its `printf` calls, in order. -/
structure ConfigOut (σ : Type) where
  ret : Int
  dev : σ
  calls : List Call
  config : Mem
  printed : List Nat

/-! ## Data transfer -/

section DataTransfer

variable {σ : Type}

/-- The report `CP2110_write` builds for `n` payload bytes at `index`:
`buf[0] = n; memcpy(buf+1, tx_buf+index, n)`, then the first `n+1` bytes. -/
def write_report (tx_buf : Mem) (index n : Nat) : List Nat :=
  (n % 256) :: (List.range n).map (fun j => tx_buf (index + j))

/-- The statement `if (len) { ... } return n_sent;` that ends
`CP2110_write`. -/
def CP2110_write_tail (T : Transport σ) (tx_buf : Mem)
    (handle : σ) (len index : Nat) (n_sent : Int) (calls : List Call) : Out σ :=
  if len ≠ 0 then
    let buf := write_report tx_buf index len
    let r := T.hid_write handle buf
    if r.1 < 0 then ⟨r.1, r.2, calls ++ [Call.hid_write buf]⟩
    else ⟨n_sent + (r.1 - 1), r.2, calls ++ [Call.hid_write buf]⟩
  else ⟨n_sent, handle, calls⟩

/-- The `while (len >= REPORT_DATA_RX_TX_MAX)` loop of `CP2110_write` and
what follows it; `none` when the fuel does not cover the iterations. -/
def CP2110_write_loop (H : Header) (T : Transport σ) (tx_buf : Mem) :
    Nat → σ → Nat → Nat → Int → List Call → Option (Out σ)
  | 0, handle, len, index, n_sent, calls =>
    if H.REPORT_DATA_RX_TX_MAX ≤ len then none
    else some (CP2110_write_tail T tx_buf handle len index n_sent calls)
  | fuel + 1, handle, len, index, n_sent, calls =>
    if H.REPORT_DATA_RX_TX_MAX ≤ len then
      let buf := write_report tx_buf index H.REPORT_DATA_RX_TX_MAX
      let r := T.hid_write handle buf
      if r.1 < 0 then some ⟨r.1, r.2, calls ++ [Call.hid_write buf]⟩
      else if r.1 < (H.REPORT_DATA_RX_TX_MAX : Int) + 1 then
        some ⟨n_sent + (r.1 - 1), r.2, calls ++ [Call.hid_write buf]⟩
      else
        CP2110_write_loop H T tx_buf fuel r.2
          (len - H.REPORT_DATA_RX_TX_MAX) (index + H.REPORT_DATA_RX_TX_MAX)
          (n_sent + (r.1 - 1)) (calls ++ [Call.hid_write buf])
    else some (CP2110_write_tail T tx_buf handle len index n_sent calls)

/-- `int CP2110_write(CP2110_dev *handle, char *tx_buf, int len)` for
`len ≥ 0`.  `len` iterations of fuel cover the loop whenever
`REPORT_DATA_RX_TX_MAX` is positive. -/
def CP2110_write (H : Header) (T : Transport σ) (handle : σ) (tx_buf : Mem)
    (len : Nat) : Option (Out σ) :=
  CP2110_write_loop H T tx_buf len handle len 0 0 []

/-- The body shared by both `hid_read` sites of `CP2110_read` up to the
copy: `n_read += ret ? ret-1 : 0; if (ret) memcpy(rx_buf+index, buf, n_read);`.
Gives the new `n_read`, the new destination and the copies logged. -/
def read_account (ret : Int) (buf : Mem) (rx_buf : Mem) (index : Nat) (n_read : Int)
    (copies : List (Nat × Nat)) : Int × Mem × List (Nat × Nat) :=
  let n_read := n_read + (if ret ≠ 0 then ret - 1 else 0)
  if ret ≠ 0 then
    (n_read, memcpy rx_buf index buf 0 n_read.toNat, copies ++ [(index, n_read.toNat)])
  else (n_read, rx_buf, copies)

/-- The statement `if (len) { ... } return n_read;` that ends
`CP2110_read`. -/
def CP2110_read_tail (T : Transport σ) (handle : σ) (buf : Mem) (rx_buf : Mem)
    (len index : Nat) (n_read : Int) (calls : List Call) (copies : List (Nat × Nat)) :
    ReadOut σ :=
  if len ≠ 0 then
    let buf := buf.store 0 (len % 256)
    let call := Call.hid_read (buf.bytes (len + 1))
    let r := T.hid_read handle buf (len + 1)
    if r.1 < 0 then ⟨r.1, r.2.2, calls ++ [call], rx_buf, copies⟩
    else
      let a := read_account r.1 r.2.1 rx_buf index n_read copies
      ⟨a.1, r.2.2, calls ++ [call], a.2.1, a.2.2⟩
  else ⟨n_read, handle, calls, rx_buf, copies⟩

/-- The `while (len >= REPORT_DATA_RX_TX_MAX)` loop of `CP2110_read` and
what follows it; `none` when the fuel does not cover the iterations. -/
def CP2110_read_loop (H : Header) (T : Transport σ) :
    Nat → σ → Mem → Mem → Nat → Nat → Int → List Call → List (Nat × Nat) →
      Option (ReadOut σ)
  | 0, handle, buf, rx_buf, len, index, n_read, calls, copies =>
    if H.REPORT_DATA_RX_TX_MAX ≤ len then none
    else some (CP2110_read_tail T handle buf rx_buf len index n_read calls copies)
  | fuel + 1, handle, buf, rx_buf, len, index, n_read, calls, copies =>
    if H.REPORT_DATA_RX_TX_MAX ≤ len then
      let buf := buf.store 0 (H.REPORT_DATA_RX_TX_MAX % 256)
      let call := Call.hid_read (buf.bytes (H.REPORT_DATA_RX_TX_MAX + 1))
      let r := T.hid_read handle buf (H.REPORT_DATA_RX_TX_MAX + 1)
      if r.1 < 0 then some ⟨r.1, r.2.2, calls ++ [call], rx_buf, copies⟩
      else
        let a := read_account r.1 r.2.1 rx_buf index n_read copies
        if r.1 < (H.REPORT_DATA_RX_TX_MAX : Int) then
          some ⟨a.1, r.2.2, calls ++ [call], a.2.1, a.2.2⟩
        else
          CP2110_read_loop H T fuel r.2.2 r.2.1 a.2.1
            (len - H.REPORT_DATA_RX_TX_MAX) (index + H.REPORT_DATA_RX_TX_MAX)
            a.1 (calls ++ [call]) a.2.2
    else some (CP2110_read_tail T handle buf rx_buf len index n_read calls copies)

/-- `int CP2110_read(CP2110_dev *handle, char *rx_buf, int len)` for
`len ≥ 0`; `buf0` is what the local report buffer holds on entry. -/
def CP2110_read (H : Header) (T : Transport σ) (handle : σ) (buf0 : Mem)
    (rx_buf : Mem) (len : Nat) : Option (ReadOut σ) :=
  CP2110_read_loop H T len handle buf0 rx_buf len 0 0 [] []

end DataTransfer

/-! ## UART configuration and GPIO -/

section FeatureReports

variable {σ : Type}

/-- `int CP2110_uartEnabled(CP2110_dev *handle)`. -/
def CP2110_uartEnabled (H : Header) (T : Transport σ) (handle : σ) (buf0 : Mem) : Out σ :=
  let buf := buf0.store 0 (H.REPORT_GET_SET_UART_ENABLE % 256)
  let call := Call.hid_get_feature_report (buf.bytes 2)
  let r := T.hid_get_feature_report handle buf 2
  if r.1 ≠ 0 then ⟨r.2.1 1 % 256, r.2.2, [call]⟩
  else ⟨-1, r.2.2, [call]⟩

/-- `int CP2110_enableUART(CP2110_dev *handle)`; byte 2 of the 3-byte buffer
is never assigned. -/
def CP2110_enableUART (H : Header) (T : Transport σ) (handle : σ) (buf0 : Mem) : Out σ :=
  let buf := buf0.store 0 (H.REPORT_GET_SET_UART_ENABLE % 256)
  let buf := buf.store 1 1
  let data := buf.bytes 3
  let w := T.hid_send_feature_report handle data
  if w.1 > 0 then ⟨1, w.2, [Call.hid_send_feature_report data]⟩
  else ⟨w.1, w.2, [Call.hid_send_feature_report data]⟩

/-- `int CP2110_disableUART(CP2110_dev *handle)`; byte 2 of the 3-byte buffer
is never assigned. -/
def CP2110_disableUART (H : Header) (T : Transport σ) (handle : σ) (buf0 : Mem) : Out σ :=
  let buf := buf0.store 0 (H.REPORT_GET_SET_UART_ENABLE % 256)
  let buf := buf.store 1 0
  let data := buf.bytes 3
  let w := T.hid_send_feature_report handle data
  if w.1 > 0 then ⟨1, w.2, [Call.hid_send_feature_report data]⟩
  else ⟨w.1, w.2, [Call.hid_send_feature_report data]⟩

/-- `int CP2110_purgeFIFO(CP2110_dev *handle, CP2110_fifo fifo)`; the body
does not mention `fifo`. -/
def CP2110_purgeFIFO (H : Header) (T : Transport σ) (handle : σ) (buf0 : Mem)
    (_fifo : Nat) : Out σ :=
  let buf := buf0.store 0 (H.REPORT_SET_PURGE_FIFOS % 256)
  let call := Call.hid_get_feature_report (buf.bytes 2)
  let r := T.hid_get_feature_report handle buf 2
  if r.1 ≠ 0 then ⟨r.2.1 1 % 256, r.2.2, [call]⟩
  else ⟨-1, r.2.2, [call]⟩

/-- The first `printf` argument of `CP2110_getUARTConfig`,
`(unsigned int) (buf[1]<<(8*3) | buf[2]<<(8*2) | buf[3]<<8 | buf[4])`. -/
def uart_baud (buf : Mem) : Nat :=
  ((((buf 1 % 256) <<< (8 * 3)) ||| ((buf 2 % 256) <<< (8 * 2)) ||| ((buf 3 % 256) <<< 8))
    ||| (buf 4 % 256)) % 2 ^ 32

/-- `int CP2110_getUARTConfig(CP2110_dev *handle, uint8_t *config)`. -/
def CP2110_getUARTConfig (H : Header) (T : Transport σ) (handle : σ) (buf0 : Mem)
    (config : Mem) : ConfigOut σ :=
  let buf := buf0.store 0 (H.REPORT_GET_SET_UART_CONFIG % 256)
  let call := Call.hid_get_feature_report (buf.bytes 9)
  let r := T.hid_get_feature_report handle buf 9
  if r.1 < 1 then ⟨r.1, r.2.2, [call], config, []⟩
  else
    let buf := r.2.1
    ⟨1, r.2.2, [call], memcpy config 0 buf 1 8,
      [uart_baud buf, buf 5 % 256, buf 6 % 256, buf 7 % 256, buf 8 % 256]⟩

/-- `int CP2110_setUARTConfig(handle, baud, parity, flow_control, data_bits,
stop_bits)`; the enum arguments are cast to `uint8_t` by the function. -/
def CP2110_setUARTConfig (H : Header) (T : Transport σ) (handle : σ) (buf0 : Mem)
    (baud parity flow_control data_bits stop_bits : Nat) : Out σ :=
  let buf := buf0.store 0 (H.REPORT_GET_SET_UART_CONFIG % 256)
  let baud := if baud < 300 then 300 else if baud > 500000 then 500000 else baud
  let buf := (List.range 4).foldl
    (fun b i => b.store (i + 1) ((0xff &&& (baud >>> ((3 - i) * 8))) % 256)) buf
  let buf := buf.store 5 (parity % 256)
  let buf := buf.store 6 (flow_control % 256)
  let buf := buf.store 7 (data_bits % 256)
  let buf := buf.store 8 (stop_bits % 256)
  let data := buf.bytes 9
  let w := T.hid_send_feature_report handle data
  if w.1 > 0 then ⟨1, w.2, [Call.hid_send_feature_report data]⟩
  else ⟨w.1, w.2, [Call.hid_send_feature_report data]⟩

/-- The `switch (pin)` of `CP2110_getGPIOPin` and `CP2110_setGPIOPin`, which
assigns the `uint16_t mask`; `none` is the `default:` branch. -/
def gpio_mask_switch (H : Header) : Nat → Option Nat
  | 0 => some (H.CP2110_GPIO0_MASK % 65536)
  | 1 => some (H.CP2110_GPIO1_MASK % 65536)
  | 2 => some (H.CP2110_GPIO2_MASK % 65536)
  | 3 => some (H.CP2110_GPIO3_MASK % 65536)
  | 4 => some (H.CP2110_GPIO4_MASK % 65536)
  | 5 => some (H.CP2110_GPIO5_MASK % 65536)
  | 6 => some (H.CP2110_GPIO6_MASK % 65536)
  | 7 => some (H.CP2110_GPIO7_MASK % 65536)
  | 8 => some (H.CP2110_GPIO8_MASK % 65536)
  | 9 => some (H.CP2110_GPIO9_MASK % 65536)
  | _ => none

/-- The expression `(buf[1] << 8) | buf[2]` stored in `uint16_t values`. -/
def gpio_values (buf : Mem) : Nat :=
  (((buf 1 % 256) <<< 8) ||| (buf 2 % 256)) % 65536

/-- `int CP2110_getGPIOPin(CP2110_dev *handle, uint8_t pin)`. -/
def CP2110_getGPIOPin (H : Header) (T : Transport σ) (handle : σ) (buf0 : Mem)
    (pin : Nat) : Out σ :=
  if pin > 9 then ⟨-1, handle, []⟩
  else
    let buf := buf0.store 0 (H.REPORT_GET_GPIO_VALUES % 256)
    let call := Call.hid_get_feature_report (buf.bytes 3)
    let r := T.hid_get_feature_report handle buf 3
    if r.1 ≤ 0 then ⟨-1, r.2.2, [call]⟩
    else
      let values := gpio_values r.2.1
      match gpio_mask_switch H pin with
      | none => ⟨-1, r.2.2, [call]⟩
      | some mask =>
        if values &&& mask ≠ 0 then ⟨1, r.2.2, [call]⟩ else ⟨0, r.2.2, [call]⟩

/-- The statement `if (state) values |= mask; else values &= ~mask;` on the
`uint16_t` variables: the complement is taken within 16 bits. -/
def gpio_apply (values mask state : Nat) : Nat :=
  if state ≠ 0 then (values ||| mask) % 65536
  else (values &&& (0xffff ^^^ mask)) % 65536

/-- `int CP2110_setGPIOPin(CP2110_dev *handle, uint8_t pin, uint8_t state)`. -/
def CP2110_setGPIOPin (H : Header) (T : Transport σ) (handle : σ) (buf0 : Mem)
    (pin state : Nat) : Out σ :=
  if pin > 9 then ⟨-1, handle, []⟩
  else
    let buf := buf0.store 0 (H.REPORT_GET_GPIO_VALUES % 256)
    let call := Call.hid_get_feature_report (buf.bytes 3)
    let r := T.hid_get_feature_report handle buf 3
    if r.1 ≤ 0 then ⟨-1, r.2.2, [call]⟩
    else
      let buf := r.2.1
      let values := gpio_values buf
      match gpio_mask_switch H pin with
      | none => ⟨-1, r.2.2, [call]⟩
      | some mask =>
        let values := gpio_apply values mask state
        let buf := buf.store 0 (H.REPORT_SET_GPIO_VALUES % 256)
        let buf := buf.store 1 (((values >>> 8) &&& 0xff) % 256)
        let buf := buf.store 2 ((values &&& 0xff) % 256)
        let buf := buf.store 3 (((mask >>> 8) &&& 0xff) % 256)
        let buf := buf.store 4 ((mask &&& 0xff) % 256)
        let data := buf.bytes 5
        let w := T.hid_send_feature_report r.2.2 data
        if w.1 ≤ 0 then ⟨-1, w.2, [call, Call.hid_send_feature_report data]⟩
        else ⟨0, w.2, [call, Call.hid_send_feature_report data]⟩

/-- `int CP2110_setGPIOConfig(CP2110_dev *handle, uint8_t pin, uint8_t mode)`. -/
def CP2110_setGPIOConfig (H : Header) (T : Transport σ) (handle : σ) (buf0 : Mem)
    (pin mode : Nat) : Out σ :=
  if pin > 9 ∨ (pin > 5 ∧ mode = H.GPIO_ALTERNATE) then ⟨-1, handle, []⟩
  else
    let buf := buf0.store 0 (H.REPORT_GET_SET_GPIO_CONFIG % 256)
    let buf := buf.store (pin + 1) (mode % 256)
    let data := buf.bytes 11
    let w := T.hid_send_feature_report handle data
    if w.1 ≤ 0 then ⟨-1, w.2, [Call.hid_send_feature_report data]⟩
    else ⟨0, w.2, [Call.hid_send_feature_report data]⟩

end FeatureReports

/-! ## Environments used to run the driver -/

/-- Modelled from the spec: `cp2110.h` is not among the sources.  A sample
header: byte-sized report ids, a maximum data payload of 63 bytes, and one
bit per pin at non-contiguous positions of the 16-bit GPIO register. -/
def sampleHeader : Header where
  REPORT_DATA_RX_TX_MAX := 0x3F
  REPORT_GET_SET_UART_ENABLE := 0x41
  REPORT_SET_PURGE_FIFOS := 0x43
  REPORT_GET_SET_UART_CONFIG := 0x50
  REPORT_GET_GPIO_VALUES := 0x44
  REPORT_SET_GPIO_VALUES := 0x45
  REPORT_GET_SET_GPIO_CONFIG := 0x66
  GPIO_ALTERNATE := 3
  CP2110_GPIO0_MASK := 0x0001
  CP2110_GPIO1_MASK := 0x0002
  CP2110_GPIO2_MASK := 0x0004
  CP2110_GPIO3_MASK := 0x0008
  CP2110_GPIO4_MASK := 0x0040
  CP2110_GPIO5_MASK := 0x0080
  CP2110_GPIO6_MASK := 0x0400
  CP2110_GPIO7_MASK := 0x0800
  CP2110_GPIO8_MASK := 0x1000
  CP2110_GPIO9_MASK := 0x2000

/-- The mask macro `CP2110_GPIOn_MASK` that the header gives pin `n`, the
`mask_of(n)` of the specification (0 where the header names no mask). -/
def Header.mask_of (H : Header) : Nat → Nat
  | 0 => H.CP2110_GPIO0_MASK
  | 1 => H.CP2110_GPIO1_MASK
  | 2 => H.CP2110_GPIO2_MASK
  | 3 => H.CP2110_GPIO3_MASK
  | 4 => H.CP2110_GPIO4_MASK
  | 5 => H.CP2110_GPIO5_MASK
  | 6 => H.CP2110_GPIO6_MASK
  | 7 => H.CP2110_GPIO7_MASK
  | 8 => H.CP2110_GPIO8_MASK
  | 9 => H.CP2110_GPIO9_MASK
  | _ => 0

/-- A transport driven by a script: its state counts the calls made, and the
`i`-th call returns `res i`; a call that fills a buffer puts the bytes
`resp i` at its front. -/
def scripted (res : Nat → Int) (resp : Nat → List Nat) : Transport Nat where
  hid_write i _ := (res i, i + 1)
  hid_read i buf _ := (res i, buf.fill (resp i), i + 1)
  hid_send_feature_report i _ := (res i, i + 1)
  hid_get_feature_report i buf _ := (res i, buf.fill (resp i), i + 1)

/-- A transport whose every send reports the full size it was given (and
whose every read returns nothing); it has no state. -/
def fullWrites : Transport Unit where
  hid_write _ d := ((d.length : Int), ())
  hid_read _ buf _ := (0, buf, ())
  hid_send_feature_report _ d := ((d.length : Int), ())
  hid_get_feature_report _ buf _ := (0, buf, ())

/-- The chip as a holder of the 16-bit GPIO register: a get-feature-report
tagged with the GPIO-values id answers `[id, hi, lo]`, and a 5-byte set
report `[id, value_hi, value_lo, mask_hi, mask_lo]` tagged with the set id
leaves `(old & ~mask) | (value & mask)` in the register. -/
def chip (H : Header) : Transport Nat where
  hid_write reg d := ((d.length : Int), reg)
  hid_read reg buf _ := (0, buf, reg)
  hid_send_feature_report reg d :=
    if d.length = 5 ∧ d.getD 0 0 = H.REPORT_SET_GPIO_VALUES then
      let value := d.getD 1 0 * 256 + d.getD 2 0
      let mask := d.getD 3 0 * 256 + d.getD 4 0
      (5, (reg &&& (0xffff ^^^ mask)) ||| (value &&& mask))
    else ((d.length : Int), reg)
  hid_get_feature_report reg buf size :=
    if buf 0 = H.REPORT_GET_GPIO_VALUES ∧ size = 3 then
      (3, buf.fill [H.REPORT_GET_GPIO_VALUES, reg / 256, reg % 256], reg)
    else (0, buf, reg)

/-! ## Facts about buffers -/

theorem Mem.bytes_length (m : Mem) (n : Nat) : (m.bytes n).length = n := by
  simp [Mem.bytes]

theorem Mem.bytes_getD (m : Mem) (n i d : Nat) (h : i < n) : (m.bytes n).getD i d = m i := by
  simp [Mem.bytes, List.getD, List.getElem?_map, List.getElem?_range h]

theorem write_report_length (tx_buf : Mem) (index n : Nat) :
    (write_report tx_buf index n).length = n + 1 := by
  simp [write_report]

/-! ## Pin validation -/

/-- C6: for every pin above 9, `CP2110_getGPIOPin`, `CP2110_setGPIOPin` and
`CP2110_setGPIOConfig` (whatever the state or mode) return -1, make no
library call and leave the device as it was. -/
theorem pin_above_9_is_rejected {σ : Type} (H : Header) (T : Transport σ) (handle : σ)
    (buf0 : Mem) (pin state mode : Nat) (hpin : 9 < pin) :
    ((CP2110_getGPIOPin H T handle buf0 pin).ret = -1
      ∧ (CP2110_getGPIOPin H T handle buf0 pin).calls = []
      ∧ (CP2110_getGPIOPin H T handle buf0 pin).dev = handle)
    ∧ ((CP2110_setGPIOPin H T handle buf0 pin state).ret = -1
      ∧ (CP2110_setGPIOPin H T handle buf0 pin state).calls = []
      ∧ (CP2110_setGPIOPin H T handle buf0 pin state).dev = handle)
    ∧ ((CP2110_setGPIOConfig H T handle buf0 pin mode).ret = -1
      ∧ (CP2110_setGPIOConfig H T handle buf0 pin mode).calls = []
      ∧ (CP2110_setGPIOConfig H T handle buf0 pin mode).dev = handle) := by
  have h : pin > 9 := hpin
  simp [CP2110_getGPIOPin, CP2110_setGPIOPin, CP2110_setGPIOConfig, h]

/-- Witness of C6 at pin 10 on the chip model. -/
theorem pin_above_9_is_rejected_witness :
    (CP2110_getGPIOPin sampleHeader (chip sampleHeader) 0 (fun _ => 0) 10).calls = []
    ∧ (CP2110_setGPIOPin sampleHeader (chip sampleHeader) 0 (fun _ => 0) 10 1).ret = -1
    ∧ (CP2110_setGPIOConfig sampleHeader (chip sampleHeader) 0 (fun _ => 0) 10 0).ret = -1 :=
  have h := pin_above_9_is_rejected sampleHeader (chip sampleHeader) 0 (fun _ => 0) 10 1 0
    (by decide)
  ⟨h.1.2.1, h.2.1.1, h.2.2.1⟩

/-- C7: with mode `GPIO_ALTERNATE`, `CP2110_setGPIOConfig` returns -1 without
a library call for every pin above 5; for every pin up to 5 it sends one
feature report of 11 bytes whose byte 0 is the GPIO-config id and whose byte
`pin+1` is the mode, and returns 0 whenever the library reports a positive
count. -/
theorem setGPIOConfig_alternate {σ : Type} (H : Header) (T : Transport σ) (handle : σ)
    (buf0 : Mem) (pin : Nat)
    (hid : H.REPORT_GET_SET_GPIO_CONFIG < 256) (halt : H.GPIO_ALTERNATE < 256) :
    (5 < pin →
      (CP2110_setGPIOConfig H T handle buf0 pin H.GPIO_ALTERNATE).ret = -1
      ∧ (CP2110_setGPIOConfig H T handle buf0 pin H.GPIO_ALTERNATE).calls = [])
    ∧ (pin ≤ 5 → ∃ data : List Nat,
      (CP2110_setGPIOConfig H T handle buf0 pin H.GPIO_ALTERNATE).calls
          = [Call.hid_send_feature_report data]
      ∧ data.length = 11
      ∧ data.getD 0 0 = H.REPORT_GET_SET_GPIO_CONFIG
      ∧ data.getD (pin + 1) 0 = H.GPIO_ALTERNATE
      ∧ (0 < (T.hid_send_feature_report handle data).1 →
          (CP2110_setGPIOConfig H T handle buf0 pin H.GPIO_ALTERNATE).ret = 0)) := by
  constructor
  · intro h5
    have h : pin > 9 ∨ pin > 5 := Or.inr h5
    simp [CP2110_setGPIOConfig, h]
  · intro h5
    have h : ¬ (pin > 9 ∨ pin > 5) := by omega
    refine ⟨((buf0.store 0 (H.REPORT_GET_SET_GPIO_CONFIG % 256)).store (pin + 1)
      (H.GPIO_ALTERNATE % 256)).bytes 11, ?_, Mem.bytes_length _ _, ?_, ?_, ?_⟩
    · simp only [CP2110_setGPIOConfig, and_true, h, if_false]
      split <;> rfl
    · rw [Mem.bytes_getD _ _ _ _ (by omega)]
      simp [Mem.store, Nat.mod_eq_of_lt hid]
    · rw [Mem.bytes_getD _ _ _ _ (by omega)]
      simp [Mem.store, Nat.mod_eq_of_lt halt]
    · intro hpos
      have hn : ¬ (T.hid_send_feature_report handle
          (((buf0.store 0 (H.REPORT_GET_SET_GPIO_CONFIG % 256)).store (pin + 1)
            (H.GPIO_ALTERNATE % 256)).bytes 11)).1 ≤ 0 := by omega
      simp only [CP2110_setGPIOConfig, and_true, h, if_false, hn]

/-- Witness of C7 at pin 2 against a library that reports full sends. -/
theorem setGPIOConfig_alternate_witness :
    ∃ data : List Nat,
      (CP2110_setGPIOConfig sampleHeader fullWrites () (fun _ => 0) 2
          sampleHeader.GPIO_ALTERNATE).calls = [Call.hid_send_feature_report data]
      ∧ data.length = 11
      ∧ data.getD 0 0 = sampleHeader.REPORT_GET_SET_GPIO_CONFIG
      ∧ data.getD (2 + 1) 0 = sampleHeader.GPIO_ALTERNATE
      ∧ (0 < (fullWrites.hid_send_feature_report () data).1 →
          (CP2110_setGPIOConfig sampleHeader fullWrites () (fun _ => 0) 2
            sampleHeader.GPIO_ALTERNATE).ret = 0) :=
  (setGPIOConfig_alternate sampleHeader fullWrites () (fun _ => 0) 2
    (by decide) (by decide)).2 (by decide)

/-! ## Bytes and bits -/

theorem and_ff_left (x : Nat) : 0xff &&& x = x % 256 := by
  rw [Nat.and_comm]; exact Nat.and_pow_two_sub_one_eq_mod x 8

theorem and_ff_right (x : Nat) : x &&& 0xff = x % 256 :=
  Nat.and_pow_two_sub_one_eq_mod x 8

theorem hi_lo_decode (x : Nat) (h : x < 65536) :
    (((x / 256 % 256) <<< 8) ||| (x % 256 % 256)) % 65536 = x := by
  have h1 : x / 256 % 256 = x / 256 := Nat.mod_eq_of_lt (by omega)
  have h2 : x % 256 % 256 = x % 256 := Nat.mod_eq_of_lt (by omega)
  have h3 : (x / 256) <<< 8 = 2 ^ 8 * (x / 256) := by rw [Nat.shiftLeft_eq, Nat.mul_comm]
  have h4 : x % 256 < 2 ^ 8 := by omega
  rw [h1, h2, h3, ← Nat.mul_add_lt_is_or h4]
  omega

/-! ## UART configuration -/

/-- C3: whatever the baud value and the four field bytes, `CP2110_setUARTConfig`
makes exactly one library call, a feature-report send of the 9 bytes
`[id, B3, B2, B1, B0, parity, flow_control, data_bits, stop_bits]` with
`B3..B0` the bytes of `max 300 (min 500000 baud)`, most significant first;
its return value is decided by the result of that send alone (1 when
positive, else the result), so no baud value is rejected. -/
theorem setUARTConfig_report {σ : Type} (H : Header) (T : Transport σ) (handle : σ)
    (buf0 : Mem) (baud parity flow_control data_bits stop_bits : Nat)
    (hid : H.REPORT_GET_SET_UART_CONFIG < 256)
    (hp : parity < 256) (hf : flow_control < 256) (hd : data_bits < 256)
    (hs : stop_bits < 256) :
    (CP2110_setUARTConfig H T handle buf0 baud parity flow_control data_bits stop_bits).calls
      = [Call.hid_send_feature_report
          [H.REPORT_GET_SET_UART_CONFIG,
           max 300 (min 500000 baud) / 2 ^ 24 % 256,
           max 300 (min 500000 baud) / 2 ^ 16 % 256,
           max 300 (min 500000 baud) / 2 ^ 8 % 256,
           max 300 (min 500000 baud) % 256,
           parity, flow_control, data_bits, stop_bits]]
    ∧ (CP2110_setUARTConfig H T handle buf0 baud parity flow_control data_bits stop_bits).ret
      = (if 0 < (T.hid_send_feature_report handle
            [H.REPORT_GET_SET_UART_CONFIG,
             max 300 (min 500000 baud) / 2 ^ 24 % 256,
             max 300 (min 500000 baud) / 2 ^ 16 % 256,
             max 300 (min 500000 baud) / 2 ^ 8 % 256,
             max 300 (min 500000 baud) % 256,
             parity, flow_control, data_bits, stop_bits]).1 then 1
         else (T.hid_send_feature_report handle
            [H.REPORT_GET_SET_UART_CONFIG,
             max 300 (min 500000 baud) / 2 ^ 24 % 256,
             max 300 (min 500000 baud) / 2 ^ 16 % 256,
             max 300 (min 500000 baud) / 2 ^ 8 % 256,
             max 300 (min 500000 baud) % 256,
             parity, flow_control, data_bits, stop_bits]).1) := by
  have hc : (if baud < 300 then 300 else if baud > 500000 then 500000 else baud)
      = max 300 (min 500000 baud) := by
    split
    · omega
    · split <;> omega
  have hdata : Mem.bytes (Mem.store (Mem.store (Mem.store (Mem.store
        ((List.range 4).foldl
          (fun b i => Mem.store b (i + 1)
            ((0xff &&& (max 300 (min 500000 baud) >>> ((3 - i) * 8))) % 256))
          (Mem.store buf0 0 (H.REPORT_GET_SET_UART_CONFIG % 256)))
        5 (parity % 256)) 6 (flow_control % 256)) 7 (data_bits % 256)) 8 (stop_bits % 256)) 9
      = [H.REPORT_GET_SET_UART_CONFIG,
           max 300 (min 500000 baud) / 2 ^ 24 % 256,
           max 300 (min 500000 baud) / 2 ^ 16 % 256,
           max 300 (min 500000 baud) / 2 ^ 8 % 256,
           max 300 (min 500000 baud) % 256,
           parity, flow_control, data_bits, stop_bits] := by
    simp [Mem.bytes, Mem.store, List.range, List.range.loop, and_ff_left,
      Nat.shiftRight_eq_div_pow, Nat.mod_eq_of_lt hid, Nat.mod_eq_of_lt hp,
      Nat.mod_eq_of_lt hf, Nat.mod_eq_of_lt hd, Nat.mod_eq_of_lt hs]
  unfold CP2110_setUARTConfig
  simp only [hc, hdata]
  constructor
  · split <;> rfl
  · split <;> rfl

/-- Witness of C3, the scenario of the specification: baud 115200 with field
bytes 0, 0, 8, 0 is sent as `[id, 0x00, 0x01, 0xC2, 0x00, 0, 0, 8, 0]`. -/
theorem setUARTConfig_report_witness :
    (CP2110_setUARTConfig sampleHeader fullWrites () (fun _ => 0) 115200 0 0 8 0).calls
      = [Call.hid_send_feature_report
          [sampleHeader.REPORT_GET_SET_UART_CONFIG, 0x00, 0x01, 0xC2, 0x00, 0, 0, 8, 0]] :=
  (setUARTConfig_report sampleHeader fullWrites () (fun _ => 0) 115200 0 0 8 0
    (by decide) (by decide) (by decide) (by decide) (by decide)).1

/-! ## GPIO values -/

theorem gpio_mask_switch_eq (H : Header) (pin : Nat) (hpin : pin ≤ 9) :
    gpio_mask_switch H pin = some (H.mask_of pin % 65536) := by
  interval_cases pin <;> rfl

theorem gpio_values_eq (b : Mem) (v : Nat) (hv : v < 65536)
    (hb1 : b 1 = v / 256) (hb2 : b 2 = v % 256) : gpio_values b = v := by
  unfold gpio_values
  rw [hb1, hb2]
  exact hi_lo_decode v hv

theorem gpio_apply_lt (v m state : Nat) : gpio_apply v m state < 65536 := by
  unfold gpio_apply
  split <;> exact Nat.mod_lt _ (by decide)

theorem gpio_apply_eq (v m state : Nat) (hv : v < 65536) (hm : m < 65536) :
    gpio_apply v m state = if state ≠ 0 then v ||| m else v &&& (0xffff ^^^ m) := by
  unfold gpio_apply
  split
  · exact Nat.mod_eq_of_lt (Nat.or_lt_two_pow (n := 16) hv hm)
  · exact Nat.mod_eq_of_lt (lt_of_le_of_lt Nat.and_le_left hv)

theorem gpio_apply_outside (v m state i : Nat) (hv : v < 65536) (hm : m < 65536)
    (hi : m.testBit i = false) : (gpio_apply v m state).testBit i = v.testBit i := by
  rw [gpio_apply_eq v m state hv hm]
  split
  · simp [Nat.testBit_or, hi]
  · rw [Nat.testBit_and, Nat.testBit_xor, hi]
    by_cases h16 : i < 16
    · have : Nat.testBit 0xffff i = true := by
        have := Nat.testBit_two_pow_sub_one 16 i
        simpa [h16] using this
      simp [this]
    · have h1 : v.testBit i = false := by
        apply Nat.testBit_lt_two_pow
        exact lt_of_lt_of_le hv (Nat.pow_le_pow_right (n := 2) (by decide) (by omega : 16 ≤ i))
      simp [h1]

theorem gpio_apply_inside (v m state i : Nat) (hv : v < 65536) (hm : m < 65536)
    (hi : m.testBit i = true) : (gpio_apply v m state).testBit i = decide (state ≠ 0) := by
  rw [gpio_apply_eq v m state hv hm]
  have h16 : i < 16 := by
    by_contra hge
    have : m.testBit i = false := by
      apply Nat.testBit_lt_two_pow
      exact lt_of_lt_of_le hm (Nat.pow_le_pow_right (n := 2) (by decide) (by omega : 16 ≤ i))
    rw [this] at hi
    exact Bool.noConfusion hi
  split
  · rename_i hs
    simp [Nat.testBit_or, hi, hs]
  · rename_i hs
    have : Nat.testBit 0xffff i = true := by
      have := Nat.testBit_two_pow_sub_one 16 i
      simpa [h16] using this
    rw [Nat.testBit_and, Nat.testBit_xor, hi, this]
    simp [hs]

theorem set_report_bytes (buf : Mem) (id x m : Nat) (hid : id < 256) (hx : x < 65536)
    (hm : m < 65536) :
    Mem.bytes (Mem.store (Mem.store (Mem.store (Mem.store (Mem.store buf 0 (id % 256))
        1 (((x >>> 8) &&& 0xff) % 256)) 2 ((x &&& 0xff) % 256))
        3 (((m >>> 8) &&& 0xff) % 256)) 4 ((m &&& 0xff) % 256)) 5
      = [id, x / 256, x % 256, m / 256, m % 256] := by
  have hx1 : x / 256 % 256 = x / 256 := Nat.mod_eq_of_lt (by omega)
  have hm1 : m / 256 % 256 = m / 256 := Nat.mod_eq_of_lt (by omega)
  simp [Mem.bytes, Mem.store, List.range, List.range.loop, and_ff_right,
    Nat.shiftRight_eq_div_pow, Nat.mod_eq_of_lt hid, hx1, hm1]

/-- C4: for a pin in [0,9] with mask `m`, a state, and a read exchange that
delivers the 16-bit value `v`, `CP2110_setGPIOPin` follows the read with one
feature-report send of the 5 bytes `[set-id, hi v', lo v', hi m, lo m]`,
where `v'` is `v | m` for a non-zero state and `v & ~m` for state zero: the
bits of `v` outside `m` are those of `v'`, and the bits inside `m` are set
or cleared as the state says. -/
theorem setGPIOPin_report {σ : Type} (H : Header) (T : Transport σ) (handle : σ)
    (buf0 : Mem) (pin state v : Nat) (r : Int) (b : Mem) (h' : σ)
    (hpin : pin ≤ 9) (hv : v < 65536) (hm : H.mask_of pin < 65536)
    (hset : H.REPORT_SET_GPIO_VALUES < 256)
    (hget : T.hid_get_feature_report handle
      (buf0.store 0 (H.REPORT_GET_GPIO_VALUES % 256)) 3 = (r, b, h'))
    (hr : 0 < r) (hb1 : b 1 = v / 256) (hb2 : b 2 = v % 256) :
    ∃ v' : Nat,
      v' = (if state ≠ 0 then v ||| H.mask_of pin else v &&& (0xffff ^^^ H.mask_of pin))
      ∧ (CP2110_setGPIOPin H T handle buf0 pin state).calls
        = [Call.hid_get_feature_report
            ((buf0.store 0 (H.REPORT_GET_GPIO_VALUES % 256)).bytes 3),
           Call.hid_send_feature_report
            [H.REPORT_SET_GPIO_VALUES, v' / 256, v' % 256,
             H.mask_of pin / 256, H.mask_of pin % 256]]
      ∧ (∀ i, (H.mask_of pin).testBit i = false → v'.testBit i = v.testBit i)
      ∧ (∀ i, (H.mask_of pin).testBit i = true → v'.testBit i = decide (state ≠ 0)) := by
  refine ⟨gpio_apply v (H.mask_of pin) state, gpio_apply_eq v _ state hv hm, ?_,
    fun i hi => gpio_apply_outside v _ state i hv hm hi,
    fun i hi => gpio_apply_inside v _ state i hv hm hi⟩
  have h9 : ¬ pin > 9 := by omega
  have hr' : ¬ r ≤ 0 := by omega
  unfold CP2110_setGPIOPin
  simp only [h9, if_false, hget, hr', gpio_mask_switch_eq H pin hpin,
    Nat.mod_eq_of_lt hm, gpio_values_eq b v hv hb1 hb2,
    set_report_bytes b _ _ _ hset (gpio_apply_lt v _ state) hm]
  split <;> rfl

/-- Witness of C4, the scenario of the specification on the chip model:
with the register at 0x0000, setting pin 2 high sends value `mask_of 2` with
mask `mask_of 2`; setting it low on the register that results sends value
0x0000. -/
theorem setGPIOPin_report_witness :
    (∃ v' : Nat,
      v' = (if 1 ≠ 0 then 0 ||| sampleHeader.mask_of 2
            else 0 &&& (0xffff ^^^ sampleHeader.mask_of 2))
      ∧ (CP2110_setGPIOPin sampleHeader (chip sampleHeader) 0 (fun _ => 0) 2 1).calls
        = [Call.hid_get_feature_report
            (Mem.bytes (Mem.store (fun _ => 0) 0 (sampleHeader.REPORT_GET_GPIO_VALUES % 256)) 3),
           Call.hid_send_feature_report
            [sampleHeader.REPORT_SET_GPIO_VALUES, v' / 256, v' % 256,
             sampleHeader.mask_of 2 / 256, sampleHeader.mask_of 2 % 256]]
      ∧ (∀ i, (sampleHeader.mask_of 2).testBit i = false → v'.testBit i = Nat.testBit 0 i)
      ∧ (∀ i, (sampleHeader.mask_of 2).testBit i = true →
          v'.testBit i = decide (1 ≠ 0)))
    ∧ (CP2110_setGPIOPin sampleHeader (chip sampleHeader) 0 (fun _ => 0) 2 1).dev
        = sampleHeader.mask_of 2
    ∧ (CP2110_setGPIOPin sampleHeader (chip sampleHeader) (sampleHeader.mask_of 2)
        (fun _ => 0) 2 0).calls
        = [Call.hid_get_feature_report [0x44, 0, 0],
           Call.hid_send_feature_report
            [sampleHeader.REPORT_SET_GPIO_VALUES, 0x00, 0x00,
             sampleHeader.mask_of 2 / 256, sampleHeader.mask_of 2 % 256]] :=
  ⟨setGPIOPin_report sampleHeader (chip sampleHeader) 0 (fun _ => 0) 2 1 0 3
      (Mem.fill (Mem.store (fun _ => 0) 0 (sampleHeader.REPORT_GET_GPIO_VALUES % 256))
        [sampleHeader.REPORT_GET_GPIO_VALUES, 0 / 256, 0 % 256]) 0
      (by decide) (by decide) (by decide) (by decide) (by rfl) (by decide) (by rfl) (by rfl),
    by decide, by decide⟩

/-! ## The driver against the chip's GPIO register -/

theorem getGPIOPin_chip (H : Header) (reg : Nat) (buf0 : Mem) (q : Nat) (hq : q ≤ 9)
    (hreg : reg < 65536) (hget : H.REPORT_GET_GPIO_VALUES < 256)
    (hmq : H.mask_of q < 65536) :
    (CP2110_getGPIOPin H (chip H) reg buf0 q).ret
      = if reg &&& H.mask_of q ≠ 0 then 1 else 0 := by
  have h9 : ¬ q > 9 := by omega
  have hcall : (chip H).hid_get_feature_report reg
      (Mem.store buf0 0 (H.REPORT_GET_GPIO_VALUES % 256)) 3
      = (3, Mem.fill (Mem.store buf0 0 (H.REPORT_GET_GPIO_VALUES % 256))
          [H.REPORT_GET_GPIO_VALUES, reg / 256, reg % 256], reg) := by
    simp [chip, Mem.store, Nat.mod_eq_of_lt hget]
  have hval : gpio_values (Mem.fill (Mem.store buf0 0 (H.REPORT_GET_GPIO_VALUES % 256))
      [H.REPORT_GET_GPIO_VALUES, reg / 256, reg % 256]) = reg :=
    gpio_values_eq _ reg hreg (by simp [Mem.fill]) (by simp [Mem.fill])
  unfold CP2110_getGPIOPin
  have h3 : ¬ (3 : Int) ≤ 0 := by decide
  simp only [h9, if_false, hcall, h3, gpio_mask_switch_eq H q hq, Nat.mod_eq_of_lt hmq, hval]
  split <;> rfl

theorem setGPIOPin_chip (H : Header) (reg : Nat) (buf0 : Mem) (p s : Nat) (hp : p ≤ 9)
    (hreg : reg < 65536) (hget : H.REPORT_GET_GPIO_VALUES < 256)
    (hset : H.REPORT_SET_GPIO_VALUES < 256) (hmp : H.mask_of p < 65536) :
    (CP2110_setGPIOPin H (chip H) reg buf0 p s).dev
      = (reg &&& (0xffff ^^^ H.mask_of p)) ||| (gpio_apply reg (H.mask_of p) s &&& H.mask_of p) := by
  have h9 : ¬ p > 9 := by omega
  have hcall : (chip H).hid_get_feature_report reg
      (Mem.store buf0 0 (H.REPORT_GET_GPIO_VALUES % 256)) 3
      = (3, Mem.fill (Mem.store buf0 0 (H.REPORT_GET_GPIO_VALUES % 256))
          [H.REPORT_GET_GPIO_VALUES, reg / 256, reg % 256], reg) := by
    simp [chip, Mem.store, Nat.mod_eq_of_lt hget]
  have hval : gpio_values (Mem.fill (Mem.store buf0 0 (H.REPORT_GET_GPIO_VALUES % 256))
      [H.REPORT_GET_GPIO_VALUES, reg / 256, reg % 256]) = reg :=
    gpio_values_eq _ reg hreg (by simp [Mem.fill]) (by simp [Mem.fill])
  have hsend : ∀ x m : Nat, (chip H).hid_send_feature_report reg
      [H.REPORT_SET_GPIO_VALUES, x / 256, x % 256, m / 256, m % 256]
      = (5, (reg &&& (0xffff ^^^ m)) ||| (x &&& m)) := by
    intro x m
    simp [chip, Nat.div_add_mod']
  have h3 : ¬ (3 : Int) ≤ 0 := by decide
  have h5 : ¬ (5 : Int) ≤ 0 := by decide
  unfold CP2110_setGPIOPin
  simp only [h9, if_false, hcall, gpio_mask_switch_eq H p hp, Nat.mod_eq_of_lt hmp, hval,
    set_report_bytes _ _ _ _ hset (gpio_apply_lt reg _ s) hmp, hsend, h3, h5]

theorem and_mask_frame (reg x m mq : Nat) (hmq : mq < 65536) (hdisj : m &&& mq = 0) :
    ((reg &&& (0xffff ^^^ m)) ||| (x &&& m)) &&& mq = reg &&& mq := by
  apply Nat.eq_of_testBit_eq
  intro i
  have hd : (m.testBit i && mq.testBit i) = false := by
    rw [← Nat.testBit_and, hdisj]; simp
  simp only [Nat.testBit_and, Nat.testBit_or, Nat.testBit_xor]
  cases hq : mq.testBit i
  · simp
  · have hmi : m.testBit i = false := by
      rw [hq] at hd; simpa using hd
    have h16 : i < 16 := by
      by_contra hge
      have : mq.testBit i = false := by
        apply Nat.testBit_lt_two_pow
        exact lt_of_lt_of_le hmq (Nat.pow_le_pow_right (n := 2) (by decide) (by omega : 16 ≤ i))
      rw [this] at hq
      exact Bool.noConfusion hq
    have hff : Nat.testBit 0xffff i = true := by
      have := Nat.testBit_two_pow_sub_one 16 i
      simpa [h16] using this
    simp [hmi, hff]

theorem chip_reg_lt (reg x m : Nat) (hreg : reg < 65536) (hm : m < 65536) :
    ((reg &&& (0xffff ^^^ m)) ||| (x &&& m)) < 65536 :=
  Nat.or_lt_two_pow (n := 16) (lt_of_le_of_lt Nat.and_le_left hreg)
    (lt_of_le_of_lt Nat.and_le_right hm)

/-- C5: on the chip model, with pin masks that fit the 16-bit register and
are pairwise disjoint, for distinct pins `p` and `q` in [0,9], every state
and every register value, `CP2110_getGPIOPin` of `q` after
`CP2110_setGPIOPin` of `p` returns what `CP2110_getGPIOPin` of `q` returned
before it. -/
theorem setGPIOPin_keeps_other_pin (H : Header) (reg : Nat) (buf0 buf1 buf2 : Mem)
    (p q s : Nat) (hp : p ≤ 9) (hq : q ≤ 9) (hpq : p ≠ q) (hreg : reg < 65536)
    (hget : H.REPORT_GET_GPIO_VALUES < 256) (hset : H.REPORT_SET_GPIO_VALUES < 256)
    (hbits : ∀ a, a ≤ 9 → H.mask_of a < 65536)
    (hdisj : ∀ a, a ≤ 9 → ∀ b, b ≤ 9 → a ≠ b → H.mask_of a &&& H.mask_of b = 0) :
    (CP2110_getGPIOPin H (chip H)
        (CP2110_setGPIOPin H (chip H) reg buf0 p s).dev buf1 q).ret
      = (CP2110_getGPIOPin H (chip H) reg buf2 q).ret := by
  rw [setGPIOPin_chip H reg buf0 p s hp hreg hget hset (hbits p hp),
    getGPIOPin_chip H _ buf1 q hq (chip_reg_lt reg _ _ hreg (hbits p hp)) hget (hbits q hq),
    getGPIOPin_chip H reg buf2 q hq hreg hget (hbits q hq),
    and_mask_frame reg _ _ _ (hbits q hq) (hdisj p hp q hq hpq)]

/-- Witness of C5: with pins 3 and 5 both high, clearing pin 3 and then
reading pin 5 gives what reading pin 5 gave before. -/
theorem setGPIOPin_keeps_other_pin_witness :
    (CP2110_getGPIOPin sampleHeader (chip sampleHeader)
        (CP2110_setGPIOPin sampleHeader (chip sampleHeader) 0x0088 (fun _ => 0) 3 0).dev
        (fun _ => 0) 5).ret
      = (CP2110_getGPIOPin sampleHeader (chip sampleHeader) 0x0088 (fun _ => 0) 5).ret :=
  setGPIOPin_keeps_other_pin sampleHeader 0x0088 (fun _ => 0) (fun _ => 0) (fun _ => 0)
    3 5 0 (by decide) (by decide) (by decide) (by decide) (by decide) (by decide)
    (by decide) (by decide)

/-! ## Chunked write -/

theorem write_tail_full {σ : Type} (T : Transport σ) (tx_buf : Mem)
    (hfull : ∀ s d, (T.hid_write s d).1 = (d.length : Int))
    (handle : σ) (len index : Nat) (n_sent : Int) (calls : List Call) :
    (CP2110_write_tail T tx_buf handle len index n_sent calls).ret = n_sent + len
    ∧ (CP2110_write_tail T tx_buf handle len index n_sent calls).calls
      = calls ++ (if 0 < len then [Call.hid_write (write_report tx_buf index len)] else []) := by
  unfold CP2110_write_tail
  by_cases h0 : len = 0
  · simp [h0]
  · have hpos : 0 < len := Nat.pos_of_ne_zero h0
    have hneg : ¬ ((T.hid_write handle (write_report tx_buf index len)).1 < 0) := by
      rw [hfull, write_report_length]; omega
    simp only [ne_eq, h0, not_false_eq_true, if_true, hneg, if_false, hpos]
    refine ⟨?_, trivial⟩
    rw [hfull, write_report_length]
    push_cast
    omega

theorem write_loop_full {σ : Type} (H : Header) (T : Transport σ) (tx_buf : Mem)
    (hM : 0 < H.REPORT_DATA_RX_TX_MAX)
    (hfull : ∀ s d, (T.hid_write s d).1 = (d.length : Int)) :
    ∀ (q fuel : Nat) (handle : σ) (len index : Nat) (n_sent : Int) (calls : List Call)
      (r : Nat), r < H.REPORT_DATA_RX_TX_MAX → len = q * H.REPORT_DATA_RX_TX_MAX + r →
      q ≤ fuel →
      ∃ out, CP2110_write_loop H T tx_buf fuel handle len index n_sent calls = some out
        ∧ out.ret = n_sent + len
        ∧ out.calls = calls
            ++ (List.range q).map (fun i => Call.hid_write
                (write_report tx_buf (index + i * H.REPORT_DATA_RX_TX_MAX)
                  H.REPORT_DATA_RX_TX_MAX))
            ++ (if 0 < r then [Call.hid_write
                (write_report tx_buf (index + q * H.REPORT_DATA_RX_TX_MAX) r)] else []) := by
  intro q
  induction q with
  | zero =>
    intro fuel handle len index n_sent calls r hr hlen _
    have hlt : ¬ H.REPORT_DATA_RX_TX_MAX ≤ len := by omega
    have hlr : len = r := by omega
    have ht := write_tail_full T tx_buf hfull handle len index n_sent calls
    refine ⟨CP2110_write_tail T tx_buf handle len index n_sent calls, ?_, ht.1, ?_⟩
    · cases fuel <;> simp [CP2110_write_loop, hlt]
    · rw [ht.2, hlr]; simp
  | succ q ih =>
    intro fuel handle len index n_sent calls r hr hlen hfuel
    obtain ⟨f, rfl⟩ : ∃ f, fuel = f + 1 := ⟨fuel - 1, by omega⟩
    have hge : H.REPORT_DATA_RX_TX_MAX ≤ len := by
      rw [hlen, Nat.succ_mul]; omega
    have hret : (T.hid_write handle
        (write_report tx_buf index H.REPORT_DATA_RX_TX_MAX)).1
        = (H.REPORT_DATA_RX_TX_MAX : Int) + 1 := by
      rw [hfull, write_report_length]; push_cast; rfl
    have hneg : ¬ ((H.REPORT_DATA_RX_TX_MAX : Int) + 1 < 0) := by omega
    have hshort : ¬ ((H.REPORT_DATA_RX_TX_MAX : Int) + 1
        < (H.REPORT_DATA_RX_TX_MAX : Int) + 1) := by omega
    have hlen' : len - H.REPORT_DATA_RX_TX_MAX = q * H.REPORT_DATA_RX_TX_MAX + r := by
      rw [hlen, Nat.succ_mul]; omega
    obtain ⟨out, hout, hr1, hc1⟩ := ih f
      (T.hid_write handle (write_report tx_buf index H.REPORT_DATA_RX_TX_MAX)).2
      (len - H.REPORT_DATA_RX_TX_MAX) (index + H.REPORT_DATA_RX_TX_MAX)
      (n_sent + ((H.REPORT_DATA_RX_TX_MAX : Int) + 1 - 1))
      (calls ++ [Call.hid_write (write_report tx_buf index H.REPORT_DATA_RX_TX_MAX)])
      r hr hlen' (by omega)
    refine ⟨out, ?_, ?_, ?_⟩
    · simp only [CP2110_write_loop, hge, if_true, hret, hneg, hshort, if_false]
      exact hout
    · rw [hr1, Nat.cast_sub hge]; omega
    · rw [hc1, List.range_succ_eq_map, List.map_cons, List.map_map]
      have hfun : ((fun i => Call.hid_write
            (write_report tx_buf (index + i * H.REPORT_DATA_RX_TX_MAX)
              H.REPORT_DATA_RX_TX_MAX)) ∘ Nat.succ)
          = (fun i => Call.hid_write
            (write_report tx_buf (index + H.REPORT_DATA_RX_TX_MAX
              + i * H.REPORT_DATA_RX_TX_MAX) H.REPORT_DATA_RX_TX_MAX)) := by
        funext i
        simp only [Function.comp, Nat.succ_eq_add_one, Nat.succ_mul]
        congr 2
        omega
      have hidx : index + H.REPORT_DATA_RX_TX_MAX + q * H.REPORT_DATA_RX_TX_MAX
          = index + (q + 1) * H.REPORT_DATA_RX_TX_MAX := by
        rw [Nat.succ_mul]; omega
      rw [hfun, hidx]
      simp

theorem write_report_eq (tx_buf : Mem) (index n : Nat) (hn : n < 256) :
    write_report tx_buf index n = n :: (List.range n).map (fun j => tx_buf (index + j)) := by
  simp [write_report, Nat.mod_eq_of_lt hn]

/-- C1: when every send reports the full size it was given, `CP2110_write`
of `len = q * MAX + r` bytes (`r < MAX`, `MAX = REPORT_DATA_RX_TX_MAX`)
returns `len` after exactly `q` sends of `MAX + 1` bytes, the `i`-th being
`MAX` followed by the bytes `i * MAX ..` of the buffer in order, followed,
only when `r > 0`, by one send of `r + 1` bytes: `r` and the last `r` bytes
of the buffer. -/
theorem write_full_chunks {σ : Type} (H : Header) (T : Transport σ) (handle : σ)
    (tx_buf : Mem) (len q r : Nat)
    (hM0 : 0 < H.REPORT_DATA_RX_TX_MAX) (hM : H.REPORT_DATA_RX_TX_MAX < 256)
    (hr : r < H.REPORT_DATA_RX_TX_MAX) (hlen : len = q * H.REPORT_DATA_RX_TX_MAX + r)
    (hfull : ∀ s d, (T.hid_write s d).1 = (d.length : Int)) :
    ∃ out, CP2110_write H T handle tx_buf len = some out
      ∧ out.ret = len
      ∧ out.calls
        = (List.range q).map (fun i => Call.hid_write
            (H.REPORT_DATA_RX_TX_MAX :: (List.range H.REPORT_DATA_RX_TX_MAX).map
              (fun j => tx_buf (i * H.REPORT_DATA_RX_TX_MAX + j))))
          ++ (if 0 < r then [Call.hid_write
            (r :: (List.range r).map
              (fun j => tx_buf (q * H.REPORT_DATA_RX_TX_MAX + j)))] else [])
      ∧ out.calls.map Call.size
        = List.replicate q (H.REPORT_DATA_RX_TX_MAX + 1) ++ (if 0 < r then [r + 1] else []) := by
  have hq : q ≤ len := by
    rw [hlen]
    exact le_trans (Nat.le_mul_of_pos_right q hM0) (Nat.le_add_right _ _)
  obtain ⟨out, hout, hret, hcalls⟩ :=
    write_loop_full H T tx_buf hM0 hfull q len handle len 0 0 [] r hr hlen hq
  have hcalls' : out.calls
        = (List.range q).map (fun i => Call.hid_write
            (H.REPORT_DATA_RX_TX_MAX :: (List.range H.REPORT_DATA_RX_TX_MAX).map
              (fun j => tx_buf (i * H.REPORT_DATA_RX_TX_MAX + j))))
          ++ (if 0 < r then [Call.hid_write
            (r :: (List.range r).map
              (fun j => tx_buf (q * H.REPORT_DATA_RX_TX_MAX + j)))] else []) := by
    rw [hcalls]
    simp only [write_report_eq _ _ _ hM, write_report_eq _ _ _ (lt_trans hr hM),
      Nat.zero_add, List.nil_append]
  refine ⟨out, hout, by simpa using hret, hcalls', ?_⟩
  rw [hcalls', List.map_append, List.map_map]
  congr 1
  · rw [List.eq_replicate_iff]
    refine ⟨by simp, ?_⟩
    intro b hb
    simp only [List.mem_map, List.mem_range, Function.comp] at hb
    obtain ⟨a, _, rfl⟩ := hb
    simp [Call.size]
  · split <;> simp [Call.size]

/-- Witness of C1, the scenario of the specification with
`REPORT_DATA_RX_TX_MAX = 63`: a write of `3 * 63 + 5` bytes is 4 sends, three
of 64 bytes and one of 6, and returns 194. -/
theorem write_full_chunks_witness :
    ∃ out, CP2110_write sampleHeader fullWrites () (fun i => i % 256) (3 * 63 + 5) = some out
      ∧ out.ret = 194
      ∧ out.calls.map Call.size = [64, 64, 64, 6] :=
  match write_full_chunks sampleHeader fullWrites () (fun i => i % 256) (3 * 63 + 5) 3 5
      (by decide) (by decide) (by decide) (by decide) (fun _ _ => rfl) with
  | ⟨out, h1, h2, _, h4⟩ => ⟨out, h1, h2, h4⟩

theorem write_loop_short (H : Header) (tx_buf : Mem) (res : Nat → Int)
    (resp : Nat → List Nat) :
    ∀ (j fuel c len index : Nat) (n_sent : Int) (calls : List Call) (s : Int),
      j < fuel → (j + 1) * H.REPORT_DATA_RX_TX_MAX ≤ len →
      (∀ i, i < j → res (c + i) = (H.REPORT_DATA_RX_TX_MAX : Int) + 1) →
      res (c + j) = s → 0 ≤ s → s < (H.REPORT_DATA_RX_TX_MAX : Int) + 1 →
      ∃ out, CP2110_write_loop H (scripted res resp) tx_buf fuel c len index n_sent calls
          = some out
        ∧ out.calls = calls ++ (List.range (j + 1)).map (fun i => Call.hid_write
            (write_report tx_buf (index + i * H.REPORT_DATA_RX_TX_MAX)
              H.REPORT_DATA_RX_TX_MAX))
        ∧ out.ret = n_sent + (j : Int) * H.REPORT_DATA_RX_TX_MAX + (s - 1) := by
  intro j
  induction j with
  | zero =>
    intro fuel c len index n_sent calls s hfuel hlen _ hs hs0 hs1
    obtain ⟨f, rfl⟩ : ∃ f, fuel = f + 1 := ⟨fuel - 1, by omega⟩
    have hge : H.REPORT_DATA_RX_TX_MAX ≤ len := by simpa using hlen
    have hret : ((scripted res resp).hid_write c
        (write_report tx_buf index H.REPORT_DATA_RX_TX_MAX)).1 = s := by
      simpa [scripted] using hs
    have hneg : ¬ s < 0 := by omega
    refine ⟨⟨n_sent + (s - 1), c + 1,
      calls ++ [Call.hid_write (write_report tx_buf index H.REPORT_DATA_RX_TX_MAX)]⟩,
      ?_, ?_, ?_⟩
    · simp only [CP2110_write_loop, hge, if_true, hret, hneg, hs1, if_false]
      rfl
    · simp [List.range_succ_eq_map]
    · simp
  | succ j ih =>
    intro fuel c len index n_sent calls s hfuel hlen hfull hs hs0 hs1
    obtain ⟨f, rfl⟩ : ∃ f, fuel = f + 1 := ⟨fuel - 1, by omega⟩
    have hge : H.REPORT_DATA_RX_TX_MAX ≤ len := by
      rw [Nat.succ_mul] at hlen; omega
    have hret : ((scripted res resp).hid_write c
        (write_report tx_buf index H.REPORT_DATA_RX_TX_MAX)).1
        = (H.REPORT_DATA_RX_TX_MAX : Int) + 1 := by
      simpa [scripted] using hfull 0 (by omega)
    have hdev : ((scripted res resp).hid_write c
        (write_report tx_buf index H.REPORT_DATA_RX_TX_MAX)).2 = c + 1 := rfl
    have hneg : ¬ ((H.REPORT_DATA_RX_TX_MAX : Int) + 1 < 0) := by omega
    have hshort : ¬ ((H.REPORT_DATA_RX_TX_MAX : Int) + 1
        < (H.REPORT_DATA_RX_TX_MAX : Int) + 1) := by omega
    obtain ⟨out, hout, hc1, hr1⟩ := ih f (c + 1)
      (len - H.REPORT_DATA_RX_TX_MAX) (index + H.REPORT_DATA_RX_TX_MAX)
      (n_sent + ((H.REPORT_DATA_RX_TX_MAX : Int) + 1 - 1))
      (calls ++ [Call.hid_write (write_report tx_buf index H.REPORT_DATA_RX_TX_MAX)])
      s (by omega)
      (by rw [Nat.succ_mul] at hlen; omega)
      (fun i hi => by
        have := hfull (i + 1) (by omega)
        rwa [show c + 1 + i = c + (i + 1) by omega])
      (by rwa [show c + 1 + j = c + (j + 1) by omega]) hs0 hs1
    refine ⟨out, ?_, ?_, ?_⟩
    · simp only [CP2110_write_loop, hge, if_true, hret, hdev, hneg, hshort, if_false]
      exact hout
    · rw [hc1, List.range_succ_eq_map (j + 1), List.map_cons, List.map_map]
      have hfun : ((fun i => Call.hid_write
            (write_report tx_buf (index + i * H.REPORT_DATA_RX_TX_MAX)
              H.REPORT_DATA_RX_TX_MAX)) ∘ Nat.succ)
          = (fun i => Call.hid_write
            (write_report tx_buf (index + H.REPORT_DATA_RX_TX_MAX
              + i * H.REPORT_DATA_RX_TX_MAX) H.REPORT_DATA_RX_TX_MAX)) := by
        funext i
        simp only [Function.comp, Nat.succ_eq_add_one, Nat.succ_mul]
        congr 2
        omega
      rw [hfun]
      simp
    · rw [hr1]
      push_cast
      ring

/-- C8: when the first `k - 1` full-size sends of `CP2110_write` each report
`MAX + 1` bytes and the `k`-th reports `s` with `0 ≤ s < MAX + 1`
(`MAX = REPORT_DATA_RX_TX_MAX`, `k ≥ 1`, `len` long enough for `k`
full-size sends), the calls made are exactly those `k` full-size sends and
the value returned is `(k - 1) * MAX + (s - 1)`. -/
theorem write_short_send (H : Header) (tx_buf : Mem) (res : Nat → Int)
    (resp : Nat → List Nat) (len k : Nat) (s : Int)
    (hM0 : 0 < H.REPORT_DATA_RX_TX_MAX) (hk : 1 ≤ k)
    (hlen : k * H.REPORT_DATA_RX_TX_MAX ≤ len)
    (hfull : ∀ i, i + 1 < k → res i = (H.REPORT_DATA_RX_TX_MAX : Int) + 1)
    (hks : res (k - 1) = s) (hs0 : 0 ≤ s) (hs1 : s < (H.REPORT_DATA_RX_TX_MAX : Int) + 1) :
    ∃ out, CP2110_write H (scripted res resp) 0 tx_buf len = some out
      ∧ out.calls = (List.range k).map (fun i => Call.hid_write
          (write_report tx_buf (i * H.REPORT_DATA_RX_TX_MAX) H.REPORT_DATA_RX_TX_MAX))
      ∧ out.calls.length = k
      ∧ out.ret = ((k : Int) - 1) * H.REPORT_DATA_RX_TX_MAX + (s - 1) := by
  obtain ⟨j, rfl⟩ : ∃ j, k = j + 1 := ⟨k - 1, by omega⟩
  have hj : j < len := by
    have := Nat.le_mul_of_pos_right (j + 1) hM0
    omega
  obtain ⟨out, hout, hc, hr⟩ := write_loop_short H tx_buf res resp j len 0 len 0 0 [] s hj hlen
    (fun i hi => by simpa using hfull i (by omega)) (by simpa using hks) hs0 hs1
  refine ⟨out, hout, by simpa using hc, by simp [hc], ?_⟩
  rw [hr]
  push_cast
  ring

/-- Witness of C8 with `REPORT_DATA_RX_TX_MAX = 63`: of 130 bytes, the first
send reports 64 and the second 10; two sends are made and 72 is returned. -/
theorem write_short_send_witness :
    ∃ out, CP2110_write sampleHeader (scripted (fun i => if i = 0 then 64 else 10)
        (fun _ => [])) 0 (fun i => i % 256) 130 = some out
      ∧ out.calls.length = 2
      ∧ out.ret = 72 :=
  match write_short_send sampleHeader (fun i => i % 256) (fun i => if i = 0 then 64 else 10)
      (fun _ => []) 130 2 10 (by decide) (by decide) (by decide)
      (by intro i hi; have h0 : i = 0 := by omega
          subst h0; rfl) (by rfl) (by decide) (by decide) with
  | ⟨out, h1, _, h3, h4⟩ => ⟨out, h1, h3, by rw [h4]; rfl⟩

/-- C10 at a failing input: with `REPORT_DATA_RX_TX_MAX = 63`, a write of one
byte whose only send reports 0 bytes written (non-negative, not above the 2
requested) makes `CP2110_write` return -1, not a count in `[0, len]`:
`n_sent += ret-1` is not guarded for `ret = 0`, as the matching line of
`CP2110_read` is. -/
theorem write_zero_result_returns_minus_one :
    ∃ out, CP2110_write sampleHeader (scripted (fun _ => 0) (fun _ => [])) 0
        (fun _ => 0x55) 1 = some out
      ∧ out.calls = [Call.hid_write [1, 0x55]]
      ∧ out.ret = -1 :=
  ⟨_, rfl, by decide, by decide⟩

/-! ## Chunked read -/

/-- C2 at a failing input: with `REPORT_DATA_RX_TX_MAX = 63` and `len = 1`,
the one read returns the full 2-byte response `[1, 0xAB]` (length byte 1,
payload `0xAB`).  `CP2110_read` returns 1 and its one copy is
`memcpy(rx_buf+0, buf, 1)`, from the start of the report: the destination
byte 0 becomes the length byte 1, not the payload byte `0xAB`. -/
theorem read_copies_length_byte :
    ∃ out, CP2110_read sampleHeader (scripted (fun _ => 2) (fun _ => [1, 0xAB])) 0
        (fun _ => 0) (fun _ => 0) 1 = some out
      ∧ out.ret = 1
      ∧ out.copies = [(0, 1)]
      ∧ out.rx_buf 0 = 1
      ∧ out.rx_buf 0 ≠ 0xAB :=
  ⟨_, rfl, by decide, by decide, by decide, by decide⟩

/-- C9 at a failing input: with `REPORT_DATA_RX_TX_MAX = 63` and `len = 64`,
the first read, requested with size 64, returns 63 bytes (a length byte 62
and 62 payload bytes), fewer than requested.  `CP2110_read` tests
`ret < REPORT_DATA_RX_TX_MAX`, which 63 does not meet, and goes on to a
second read (of size 2) instead of returning the 62 bytes counted so far. -/
theorem read_short_by_one_continues :
    ∃ out, CP2110_read sampleHeader
        (scripted (fun i => if i = 0 then 63 else 2)
          (fun i => if i = 0 then 62 :: List.replicate 62 7 else [1, 9])) 0
        (fun _ => 0) (fun _ => 0) 64 = some out
      ∧ out.calls.map Call.size = [64, 2]
      ∧ out.ret = 63 :=
  ⟨_, rfl, by decide, by decide⟩

/-! ## Write against read -/

/-- C12 at two failing inputs, with `REPORT_DATA_RX_TX_MAX = 63` and the
same results given to both operations.  For `len = 1` and a first result of
0, both make one call of size 2, but `CP2110_write` returns -1 and
`CP2110_read` returns 0.  For `len = 64` and a first result of 63,
`CP2110_write` stops after one call (and returns 62) while `CP2110_read`
makes a second call of size 2. -/
theorem write_and_read_chunk_differently :
    (∃ w r, CP2110_write sampleHeader (scripted (fun _ => 0) (fun _ => [])) 0
          (fun _ => 0) 1 = some w
        ∧ CP2110_read sampleHeader (scripted (fun _ => 0) (fun _ => [])) 0
          (fun _ => 0) (fun _ => 0) 1 = some r
        ∧ w.calls.map Call.size = [2] ∧ r.calls.map Call.size = [2]
        ∧ w.ret = -1 ∧ r.ret = 0)
    ∧ (∃ w r, CP2110_write sampleHeader
          (scripted (fun i => if i = 0 then 63 else 2) (fun _ => [])) 0 (fun _ => 0) 64 = some w
        ∧ CP2110_read sampleHeader
          (scripted (fun i => if i = 0 then 63 else 2) (fun _ => [])) 0
          (fun _ => 0) (fun _ => 0) 64 = some r
        ∧ w.calls.map Call.size = [64] ∧ r.calls.map Call.size = [64, 2]
        ∧ w.ret = 62 ∧ r.ret = 63) :=
  ⟨⟨_, _, rfl, rfl, by decide, by decide, by decide, by decide⟩,
    ⟨_, _, rfl, rfl, by decide, by decide, by decide, by decide⟩⟩

/-- C18 at a failing input: with `REPORT_DATA_RX_TX_MAX = 63` and
`len = 2 * 63`, both reads return full 64-byte responses.  The second copy of
`CP2110_read` is `memcpy(rx_buf+63, buf, 126)`: it takes 126 bytes from the
64-byte report buffer and writes destination offsets 63 to 188, so that
`rx_buf[126]`, past the 126 bytes asked for, is overwritten (it was 0 and
becomes the report byte 7). -/
theorem read_second_copy_overruns :
    ∃ out, CP2110_read sampleHeader
        (scripted (fun _ => 64) (fun _ => 63 :: List.replicate 63 7)) 0
        (fun _ => 0) (fun _ => 0) (2 * 63) = some out
      ∧ out.ret = 126
      ∧ out.copies = [(0, 63), (63, 126)]
      ∧ out.rx_buf 126 = 7 :=
  ⟨_, rfl, by decide, by decide, by decide⟩

/-! ## UART control -/

/-- C15 at a failing input: the exchange fails with result -1 and delivers
nothing, while byte 1 of the local buffer happens to hold 1.
`CP2110_uartEnabled` tests `if (ret)`, which -1 passes, and returns that
byte, 1, instead of -1. -/
theorem uartEnabled_negative_result_returns_buffer_byte :
    (CP2110_uartEnabled sampleHeader (scripted (fun _ => -1) (fun _ => [])) 0
        (fun i => if i = 1 then 1 else 0)).ret = 1
    ∧ (CP2110_uartEnabled sampleHeader (scripted (fun _ => -1) (fun _ => [])) 0
        (fun i => if i = 1 then 1 else 0)).calls
      = [Call.hid_get_feature_report [0x41, 1]] :=
  ⟨by decide, by decide⟩

/-- C14 as stated fails: a send of the 3-byte report that reports only 1
byte written (short) makes `CP2110_enableUART` return 1, and one that
reports 2 bytes makes `CP2110_disableUART` return 1. -/
theorem uart_enable_short_send_is_success :
    (CP2110_enableUART sampleHeader (scripted (fun _ => 1) (fun _ => [])) 0
        (fun _ => 0)).ret = 1
    ∧ (CP2110_disableUART sampleHeader (scripted (fun _ => 2) (fun _ => [])) 0
        (fun _ => 0)).ret = 1 :=
  ⟨by decide, by decide⟩

/-- C14 amended: `CP2110_enableUART` and `CP2110_disableUART` send one
feature report of 3 bytes tagged with the UART-enable id whose byte 1 is 1
(enable) or 0 (disable), and return 1 exactly when the send reports a
positive count; a result of 0 or a negative result is returned as it is. -/
theorem uart_enable_disable_result {σ : Type} (H : Header) (T : Transport σ) (handle : σ)
    (buf0 : Mem) (hid : H.REPORT_GET_SET_UART_ENABLE < 256) :
    ((CP2110_enableUART H T handle buf0).calls
        = [Call.hid_send_feature_report [H.REPORT_GET_SET_UART_ENABLE, 1, buf0 2]]
      ∧ ((CP2110_enableUART H T handle buf0).ret = 1 ↔
          0 < (T.hid_send_feature_report handle
            [H.REPORT_GET_SET_UART_ENABLE, 1, buf0 2]).1)
      ∧ ((T.hid_send_feature_report handle
            [H.REPORT_GET_SET_UART_ENABLE, 1, buf0 2]).1 ≤ 0 →
          (CP2110_enableUART H T handle buf0).ret
            = (T.hid_send_feature_report handle
                [H.REPORT_GET_SET_UART_ENABLE, 1, buf0 2]).1))
    ∧ ((CP2110_disableUART H T handle buf0).calls
        = [Call.hid_send_feature_report [H.REPORT_GET_SET_UART_ENABLE, 0, buf0 2]]
      ∧ ((CP2110_disableUART H T handle buf0).ret = 1 ↔
          0 < (T.hid_send_feature_report handle
            [H.REPORT_GET_SET_UART_ENABLE, 0, buf0 2]).1)
      ∧ ((T.hid_send_feature_report handle
            [H.REPORT_GET_SET_UART_ENABLE, 0, buf0 2]).1 ≤ 0 →
          (CP2110_disableUART H T handle buf0).ret
            = (T.hid_send_feature_report handle
                [H.REPORT_GET_SET_UART_ENABLE, 0, buf0 2]).1)) := by
  have hen : Mem.bytes (Mem.store (Mem.store buf0 0 (H.REPORT_GET_SET_UART_ENABLE % 256)) 1 1) 3
      = [H.REPORT_GET_SET_UART_ENABLE, 1, buf0 2] := by
    simp [Mem.bytes, Mem.store, List.range, List.range.loop, Nat.mod_eq_of_lt hid]
  have hdis : Mem.bytes (Mem.store (Mem.store buf0 0 (H.REPORT_GET_SET_UART_ENABLE % 256)) 1 0) 3
      = [H.REPORT_GET_SET_UART_ENABLE, 0, buf0 2] := by
    simp [Mem.bytes, Mem.store, List.range, List.range.loop, Nat.mod_eq_of_lt hid]
  unfold CP2110_enableUART CP2110_disableUART
  simp only [hen, hdis]
  refine ⟨⟨?_, ?_, ?_⟩, ?_, ?_, ?_⟩
  · split <;> rfl
  · split
    · rename_i h; simpa using h
    · rename_i h
      constructor
      · intro h1
        have h1' : (T.hid_send_feature_report handle
            [H.REPORT_GET_SET_UART_ENABLE, 1, buf0 2]).1 = 1 := h1
        omega
      · intro h2; exact absurd h2 h
  · intro hle
    have h : ¬ (T.hid_send_feature_report handle
        [H.REPORT_GET_SET_UART_ENABLE, 1, buf0 2]).1 > 0 := by omega
    simp only [h, if_false]
  · split <;> rfl
  · split
    · rename_i h; simpa using h
    · rename_i h
      constructor
      · intro h1
        have h1' : (T.hid_send_feature_report handle
            [H.REPORT_GET_SET_UART_ENABLE, 0, buf0 2]).1 = 1 := h1
        omega
      · intro h2; exact absurd h2 h
  · intro hle
    have h : ¬ (T.hid_send_feature_report handle
        [H.REPORT_GET_SET_UART_ENABLE, 0, buf0 2]).1 > 0 := by omega
    simp only [h, if_false]

/-- Witness of C14 amended: against a library that reports the full 3
bytes, enabling sends `[id, 1, _]` and returns 1. -/
theorem uart_enable_disable_result_witness :
    (CP2110_enableUART sampleHeader fullWrites () (fun _ => 0)).calls
        = [Call.hid_send_feature_report [sampleHeader.REPORT_GET_SET_UART_ENABLE, 1, 0]]
    ∧ ((CP2110_enableUART sampleHeader fullWrites () (fun _ => 0)).ret = 1 ↔
          0 < (fullWrites.hid_send_feature_report ()
            [sampleHeader.REPORT_GET_SET_UART_ENABLE, 1, 0]).1) :=
  have h := uart_enable_disable_result sampleHeader fullWrites () (fun _ => 0) (by decide)
  ⟨h.1.1, h.1.2.1⟩

/-- C20: `CP2110_purgeFIFO` gives the same outcome for any two selectors on
the same device, transport and buffer: one library call, a
get-feature-report over 2 bytes whose byte 0 is the purge report id (as a
byte); no send is made and the selector is in no byte passed. -/
theorem purgeFIFO_ignores_selector {σ : Type} (H : Header) (T : Transport σ) (handle : σ)
    (buf0 : Mem) (fifo1 fifo2 : Nat) :
    CP2110_purgeFIFO H T handle buf0 fifo1 = CP2110_purgeFIFO H T handle buf0 fifo2
    ∧ (CP2110_purgeFIFO H T handle buf0 fifo1).calls
      = [Call.hid_get_feature_report [H.REPORT_SET_PURGE_FIFOS % 256, buf0 1]]
    ∧ (CP2110_purgeFIFO H T handle buf0 fifo1).ret
      = (if (T.hid_get_feature_report handle
              (buf0.store 0 (H.REPORT_SET_PURGE_FIFOS % 256)) 2).1 ≠ 0
         then (((T.hid_get_feature_report handle
              (buf0.store 0 (H.REPORT_SET_PURGE_FIFOS % 256)) 2).2.1 1 : Nat) : Int) % 256
         else -1) := by
  have hb : Mem.bytes (Mem.store buf0 0 (H.REPORT_SET_PURGE_FIFOS % 256)) 2
      = [H.REPORT_SET_PURGE_FIFOS % 256, buf0 1] := by
    simp [Mem.bytes, Mem.store, List.range, List.range.loop]
  refine ⟨rfl, ?_, ?_⟩
  · unfold CP2110_purgeFIFO
    simp only [hb]
    split <;> rfl
  · unfold CP2110_purgeFIFO
    by_cases h : (T.hid_get_feature_report handle
        (buf0.store 0 (H.REPORT_SET_PURGE_FIFOS % 256)) 2).1 = 0
    · simp [h]
    · simp [h]

/-! ## GPIO reads and configuration -/

/-- C16: for a pin in [0,9] and a read exchange that delivers `[id, hi, lo]`,
`CP2110_getGPIOPin` returns 1 if `hi * 256 + lo` has a bit of the pin's mask
set and 0 otherwise; and whatever the pin and the transport, the value
returned is one of -1, 0, 1. -/
theorem getGPIOPin_result {σ : Type} (H : Header) (T : Transport σ) (handle : σ)
    (buf0 : Mem) (pin hi lo : Nat) (r : Int) (b : Mem) (h' : σ)
    (hpin : pin ≤ 9) (hm : H.mask_of pin < 65536)
    (hget : T.hid_get_feature_report handle
      (buf0.store 0 (H.REPORT_GET_GPIO_VALUES % 256)) 3 = (r, b, h'))
    (hr : 0 < r) (hhi : hi < 256) (hlo : lo < 256) (hb1 : b 1 = hi) (hb2 : b 2 = lo) :
    (CP2110_getGPIOPin H T handle buf0 pin).ret
      = (if (hi * 256 + lo) &&& H.mask_of pin ≠ 0 then 1 else 0)
    ∧ ∀ (T' : Transport σ) (handle' : σ) (buf0' : Mem) (pin' : Nat),
        (CP2110_getGPIOPin H T' handle' buf0' pin').ret = -1
        ∨ (CP2110_getGPIOPin H T' handle' buf0' pin').ret = 0
        ∨ (CP2110_getGPIOPin H T' handle' buf0' pin').ret = 1 := by
  constructor
  · have h9 : ¬ pin > 9 := by omega
    have hr' : ¬ r ≤ 0 := by omega
    have hv : gpio_values b = hi * 256 + lo :=
      gpio_values_eq b (hi * 256 + lo) (by omega) (by omega) (by omega)
    unfold CP2110_getGPIOPin
    simp only [h9, if_false, hget, hr', gpio_mask_switch_eq H pin hpin,
      Nat.mod_eq_of_lt hm, hv]
    split <;> rfl
  · intro T' handle' buf0' pin'
    unfold CP2110_getGPIOPin
    by_cases h1 : pin' > 9
    · simp [h1]
    · by_cases h2 : (T'.hid_get_feature_report handle'
          (buf0'.store 0 (H.REPORT_GET_GPIO_VALUES % 256)) 3).1 ≤ 0
      · simp [h1, h2]
      · cases hsw : gpio_mask_switch H pin' with
        | none => simp [h1, h2]
        | some mask =>
          by_cases h3 : gpio_values (T'.hid_get_feature_report handle'
              (buf0'.store 0 (H.REPORT_GET_GPIO_VALUES % 256)) 3).2.1 &&& mask = 0
          · simp [h1, h2, h3]
          · simp [h1, h2, h3]

/-- Witness of C16 on the chip model: with the register at 0x0084, pin 5
(mask 0x0080) reads 1. -/
theorem getGPIOPin_result_witness :
    (CP2110_getGPIOPin sampleHeader (chip sampleHeader) 0x0084 (fun _ => 0) 5).ret
      = (if (0 * 256 + 0x84) &&& sampleHeader.mask_of 5 ≠ 0 then 1 else 0) :=
  (getGPIOPin_result sampleHeader (chip sampleHeader) 0x0084 (fun _ => 0) 5 0 0x84 3
      (Mem.fill (Mem.store (fun _ => 0) 0 (sampleHeader.REPORT_GET_GPIO_VALUES % 256))
        [sampleHeader.REPORT_GET_GPIO_VALUES, 0x0084 / 256, 0x0084 % 256]) 0x0084
      (by decide) (by decide) (by rfl) (by decide) (by decide) (by decide)
      (by rfl) (by rfl)).1

/-- C17 as stated fails: a read exchange that returns 1 (only the id byte
delivered) does not make the functions fail.  `CP2110_getGPIOPin` returns 1,
computed from the buffer bytes 1 and 2 that were not delivered, and
`CP2110_setGPIOPin` goes on to send a set report and returns 0. -/
theorem gpio_short_read_is_accepted :
    (CP2110_getGPIOPin sampleHeader (scripted (fun _ => 1) (fun _ => [0x44])) 0
        (fun _ => 0xff) 2).ret = 1
    ∧ (CP2110_setGPIOPin sampleHeader (scripted (fun _ => 1) (fun _ => [0x44])) 0
        (fun _ => 0xff) 2 0).ret = 0
    ∧ (CP2110_setGPIOPin sampleHeader (scripted (fun _ => 1) (fun _ => [0x44])) 0
        (fun _ => 0xff) 2 0).calls
      = [Call.hid_get_feature_report [0x44, 0xff, 0xff],
         Call.hid_send_feature_report [0x45, 0xff, 0xfb, 0x00, 0x04]] :=
  ⟨by decide, by decide, by decide⟩

/-- C17 amended: for a pin in [0,9], when the GPIO-values read exchange
returns 0 or a negative code, `CP2110_getGPIOPin` and `CP2110_setGPIOPin`
return -1 having made that one call only (no set report is sent), whatever
the buffer holds afterwards. -/
theorem gpio_failed_read_is_rejected {σ : Type} (H : Header) (T : Transport σ) (handle : σ)
    (buf0 : Mem) (pin state : Nat) (r : Int) (b : Mem) (h' : σ)
    (hpin : pin ≤ 9)
    (hget : T.hid_get_feature_report handle
      (buf0.store 0 (H.REPORT_GET_GPIO_VALUES % 256)) 3 = (r, b, h'))
    (hr : r ≤ 0) :
    ((CP2110_getGPIOPin H T handle buf0 pin).ret = -1
      ∧ (CP2110_getGPIOPin H T handle buf0 pin).calls
        = [Call.hid_get_feature_report
            ((buf0.store 0 (H.REPORT_GET_GPIO_VALUES % 256)).bytes 3)])
    ∧ ((CP2110_setGPIOPin H T handle buf0 pin state).ret = -1
      ∧ (CP2110_setGPIOPin H T handle buf0 pin state).calls
        = [Call.hid_get_feature_report
            ((buf0.store 0 (H.REPORT_GET_GPIO_VALUES % 256)).bytes 3)]) := by
  have h9 : ¬ pin > 9 := by omega
  unfold CP2110_getGPIOPin CP2110_setGPIOPin
  simp only [h9, if_false, hget, hr, if_true, and_self]

/-- Witness of C17 amended: the exchange returns -1; reading pin 2 fails
with -1 and setting it makes no second call. -/
theorem gpio_failed_read_is_rejected_witness :
    (CP2110_getGPIOPin sampleHeader (scripted (fun _ => -1) (fun _ => [])) 0
        (fun _ => 0xff) 2).ret = -1
    ∧ (CP2110_setGPIOPin sampleHeader (scripted (fun _ => -1) (fun _ => [])) 0
        (fun _ => 0xff) 2 1).calls
      = [Call.hid_get_feature_report
          (Mem.bytes (Mem.store (fun _ => 0xff) 0
            (sampleHeader.REPORT_GET_GPIO_VALUES % 256)) 3)] :=
  have h := gpio_failed_read_is_rejected sampleHeader (scripted (fun _ => -1) (fun _ => [])) 0
    (fun _ => 0xff) 2 1 (-1)
    (Mem.fill (Mem.store (fun _ => 0xff) 0 (sampleHeader.REPORT_GET_GPIO_VALUES % 256)) []) 1
    (by decide) (by rfl) (by decide)
  ⟨h.1.1, h.2.2⟩

/-- C19: for a valid pin and mode, the 11 bytes `CP2110_setGPIOConfig` sends
are the initial contents of its buffer except for byte 0 (the GPIO-config
id) and byte `pin+1` (the mode): each of the other 9 bytes is what the
buffer held on entry, whatever the pin and the mode. -/
theorem setGPIOConfig_other_bytes {σ : Type} (H : Header) (T : Transport σ) (handle : σ)
    (buf0 : Mem) (pin mode : Nat) (hpin : pin ≤ 9)
    (hmode : ¬ (5 < pin ∧ mode = H.GPIO_ALTERNATE)) :
    ∃ data : List Nat,
      (CP2110_setGPIOConfig H T handle buf0 pin mode).calls
          = [Call.hid_send_feature_report data]
      ∧ data.length = 11
      ∧ data.getD 0 0 = H.REPORT_GET_SET_GPIO_CONFIG % 256
      ∧ data.getD (pin + 1) 0 = mode % 256
      ∧ ∀ j, 1 ≤ j → j ≤ 10 → j ≠ pin + 1 → data.getD j 0 = buf0 j := by
  have h : ¬ (pin > 9 ∨ (pin > 5 ∧ mode = H.GPIO_ALTERNATE)) := by
    rintro (h1 | h2)
    · omega
    · exact hmode h2
  refine ⟨((buf0.store 0 (H.REPORT_GET_SET_GPIO_CONFIG % 256)).store (pin + 1)
      (mode % 256)).bytes 11, ?_, Mem.bytes_length _ _, ?_, ?_, ?_⟩
  · simp only [CP2110_setGPIOConfig, h, if_false]
    split <;> rfl
  · rw [Mem.bytes_getD _ _ _ _ (by omega)]
    simp [Mem.store]
  · rw [Mem.bytes_getD _ _ _ _ (by omega)]
    simp [Mem.store]
  · intro j h1 h10 hne
    rw [Mem.bytes_getD _ _ _ _ (by omega)]
    have h0 : j ≠ 0 := by omega
    simp [Mem.store, hne, h0]

/-- Witness of C19: with the buffer holding 0xCC everywhere on entry,
configuring pin 3 sends 0xCC, not 0, as the mode byte of pin 0. -/
theorem setGPIOConfig_other_bytes_witness :
    ∃ data : List Nat,
      (CP2110_setGPIOConfig sampleHeader fullWrites () (fun _ => 0xCC) 3 1).calls
          = [Call.hid_send_feature_report data]
      ∧ data.length = 11
      ∧ data.getD 1 0 = 0xCC :=
  match setGPIOConfig_other_bytes sampleHeader fullWrites () (fun _ => 0xCC) 3 1
      (by decide) (by decide) with
  | ⟨data, hc, hl, _, _, hrest⟩ =>
    ⟨data, hc, hl, hrest 1 (by decide) (by decide) (by decide)⟩

/-! ## Baud encoding against baud decoding -/

theorem setUARTConfig_sends {σ : Type} (H : Header) (T : Transport σ) (handle : σ)
    (buf0 : Mem) (baud parity flow_control data_bits stop_bits : Nat) :
    (CP2110_setUARTConfig H T handle buf0 baud parity flow_control data_bits stop_bits).calls
      = [Call.hid_send_feature_report
          [H.REPORT_GET_SET_UART_CONFIG % 256,
           max 300 (min 500000 baud) / 2 ^ 24 % 256,
           max 300 (min 500000 baud) / 2 ^ 16 % 256,
           max 300 (min 500000 baud) / 2 ^ 8 % 256,
           max 300 (min 500000 baud) % 256,
           parity % 256, flow_control % 256, data_bits % 256, stop_bits % 256]] := by
  have hc : (if baud < 300 then 300 else if baud > 500000 then 500000 else baud)
      = max 300 (min 500000 baud) := by
    split
    · omega
    · split <;> omega
  have hdata : Mem.bytes (Mem.store (Mem.store (Mem.store (Mem.store
        ((List.range 4).foldl
          (fun b i => Mem.store b (i + 1)
            ((0xff &&& (max 300 (min 500000 baud) >>> ((3 - i) * 8))) % 256))
          (Mem.store buf0 0 (H.REPORT_GET_SET_UART_CONFIG % 256)))
        5 (parity % 256)) 6 (flow_control % 256)) 7 (data_bits % 256)) 8 (stop_bits % 256)) 9
      = [H.REPORT_GET_SET_UART_CONFIG % 256,
           max 300 (min 500000 baud) / 2 ^ 24 % 256,
           max 300 (min 500000 baud) / 2 ^ 16 % 256,
           max 300 (min 500000 baud) / 2 ^ 8 % 256,
           max 300 (min 500000 baud) % 256,
           parity % 256, flow_control % 256, data_bits % 256, stop_bits % 256] := by
    simp [Mem.bytes, Mem.store, List.range, List.range.loop, and_ff_left,
      Nat.shiftRight_eq_div_pow]
  unfold CP2110_setUARTConfig
  simp only [hc, hdata]
  split <;> rfl

theorem uart_baud_eq (b : Mem) (h1 : b 1 < 256) (h2 : b 2 < 256) (h3 : b 3 < 256)
    (h4 : b 4 < 256) :
    uart_baud b = b 1 * 16777216 + b 2 * 65536 + b 3 * 256 + b 4 := by
  unfold uart_baud
  rw [Nat.mod_eq_of_lt h1, Nat.mod_eq_of_lt h2, Nat.mod_eq_of_lt h3, Nat.mod_eq_of_lt h4]
  have e1 : b 1 <<< (8 * 3) = 2 ^ 24 * b 1 := by rw [Nat.shiftLeft_eq, Nat.mul_comm]
  have e2 : b 2 <<< (8 * 2) = 2 ^ 16 * b 2 := by rw [Nat.shiftLeft_eq, Nat.mul_comm]
  have e3 : b 3 <<< 8 = 2 ^ 8 * b 3 := by rw [Nat.shiftLeft_eq, Nat.mul_comm]
  have s1 : 2 ^ 24 * b 1 ||| 2 ^ 16 * b 2 = 2 ^ 16 * (256 * b 1 + b 2) := by
    have hlt : 2 ^ 16 * b 2 < 2 ^ 24 := by omega
    rw [← Nat.mul_add_lt_is_or hlt]; omega
  have s2 : 2 ^ 16 * (256 * b 1 + b 2) ||| 2 ^ 8 * b 3
      = 2 ^ 8 * (65536 * b 1 + 256 * b 2 + b 3) := by
    have hlt : 2 ^ 8 * b 3 < 2 ^ 16 := by omega
    rw [← Nat.mul_add_lt_is_or hlt]; omega
  have s3 : 2 ^ 8 * (65536 * b 1 + 256 * b 2 + b 3) ||| b 4
      = 2 ^ 8 * (65536 * b 1 + 256 * b 2 + b 3) + b 4 := by
    have hlt : b 4 < 2 ^ 8 := by omega
    rw [← Nat.mul_add_lt_is_or hlt]
  rw [e1, e2, e3, s1, s2, s3]
  omega

/-- C13 as stated fails: the 4-byte input `[0, 0, 0, 0]` decodes to baud 0,
and the report sent for baud 0 carries `[0x00, 0x00, 0x01, 0x2C]` (300) in
bytes 1 to 4, not the input. -/
theorem baud_round_trip_fails_below_300 :
    uart_baud (Mem.fill (fun _ => 0) [0x50, 0, 0, 0, 0]) = 0
    ∧ (CP2110_setUARTConfig sampleHeader fullWrites () (fun _ => 0)
        (uart_baud (Mem.fill (fun _ => 0) [0x50, 0, 0, 0, 0])) 0 0 8 0).calls
      = [Call.hid_send_feature_report [0x50, 0x00, 0x00, 0x01, 0x2C, 0, 0, 8, 0]]
    ∧ [0x00, 0x00, 0x01, 0x2C] ≠ [0, 0, 0, 0] :=
  ⟨by decide, by decide, by decide⟩

/-- C13 amended: for every 4-byte input `B` (bytes 1 to 4 of a buffer)
whose big-endian value `v`, the baud decoding of `CP2110_getUARTConfig`,
lies in [300, 500000], bytes 1 to 4 of the report `CP2110_setUARTConfig`
sends for baud `v` are exactly `B`. -/
theorem baud_round_trip_in_range {σ : Type} (H : Header) (T : Transport σ) (handle : σ)
    (buf0 : Mem) (b : Mem) (parity flow_control data_bits stop_bits : Nat)
    (h1 : b 1 < 256) (h2 : b 2 < 256) (h3 : b 3 < 256) (h4 : b 4 < 256)
    (hlo : 300 ≤ uart_baud b) (hhi : uart_baud b ≤ 500000) :
    (CP2110_setUARTConfig H T handle buf0 (uart_baud b) parity flow_control data_bits
        stop_bits).calls
      = [Call.hid_send_feature_report
          [H.REPORT_GET_SET_UART_CONFIG % 256, b 1, b 2, b 3, b 4,
           parity % 256, flow_control % 256, data_bits % 256, stop_bits % 256]] := by
  rw [setUARTConfig_sends]
  have hv := uart_baud_eq b h1 h2 h3 h4
  have hc : max 300 (min 500000 (uart_baud b)) = uart_baud b := by omega
  rw [hc]
  have e1 : uart_baud b / 2 ^ 24 % 256 = b 1 := by omega
  have e2 : uart_baud b / 2 ^ 16 % 256 = b 2 := by omega
  have e3 : uart_baud b / 2 ^ 8 % 256 = b 3 := by omega
  have e4 : uart_baud b % 256 = b 4 := by omega
  rw [e1, e2, e3, e4]

/-- Witness of C13 amended: the input `[0x00, 0x01, 0xC2, 0x00]` (115200)
comes back as bytes 1 to 4 of the report. -/
theorem baud_round_trip_in_range_witness :
    (CP2110_setUARTConfig sampleHeader fullWrites () (fun _ => 0)
        (uart_baud (Mem.fill (fun _ => 0) [0x50, 0x00, 0x01, 0xC2, 0x00])) 0 0 8 0).calls
      = [Call.hid_send_feature_report
          [sampleHeader.REPORT_GET_SET_UART_CONFIG % 256,
           Mem.fill (fun _ => 0) [0x50, 0x00, 0x01, 0xC2, 0x00] 1,
           Mem.fill (fun _ => 0) [0x50, 0x00, 0x01, 0xC2, 0x00] 2,
           Mem.fill (fun _ => 0) [0x50, 0x00, 0x01, 0xC2, 0x00] 3,
           Mem.fill (fun _ => 0) [0x50, 0x00, 0x01, 0xC2, 0x00] 4,
           0 % 256, 0 % 256, 8 % 256, 0 % 256]] :=
  baud_round_trip_in_range sampleHeader fullWrites () (fun _ => 0)
    (Mem.fill (fun _ => 0) [0x50, 0x00, 0x01, 0xC2, 0x00]) 0 0 8 0
    (by decide) (by decide) (by decide) (by decide) (by decide) (by decide)

/-! ## Negative transport results -/

theorem write_tail_negative (tx_buf : Mem) (res : Nat → Int) (resp : Nat → List Nat)
    (c len index : Nat) (n_sent : Int) (calls : List Call)
    (hc : calls.length = c) (hpre : ∀ i, i < c → 0 ≤ res i) :
    ∀ i, i < (CP2110_write_tail (scripted res resp) tx_buf c len index n_sent calls).calls.length →
      res i < 0 →
      i + 1 = (CP2110_write_tail (scripted res resp) tx_buf c len index n_sent calls).calls.length
      ∧ (CP2110_write_tail (scripted res resp) tx_buf c len index n_sent calls).ret = res i := by
  have hres : ∀ d, ((scripted res resp).hid_write c d).1 = res c := fun _ => rfl
  unfold CP2110_write_tail
  by_cases h0 : len = 0
  · simp only [ne_eq, h0, not_true_eq_false, if_false]
    intro i hi hneg
    have := hpre i (by omega)
    omega
  · by_cases hn : res c < 0
    · simp only [ne_eq, h0, not_false_eq_true, if_true, hres, hn, List.length_append,
        List.length_singleton, hc]
      intro i hi hneg
      have hic : i = c := by
        by_contra hne
        have := hpre i (by omega)
        omega
      subst hic
      exact ⟨rfl, rfl⟩
    · simp only [ne_eq, h0, not_false_eq_true, if_true, hres, hn, if_false, List.length_append,
        List.length_singleton, hc]
      intro i hi hneg
      by_cases hic : i = c
      · subst hic; exact absurd hneg hn
      · have := hpre i (by omega)
        omega

theorem write_loop_negative (H : Header) (tx_buf : Mem) (res : Nat → Int)
    (resp : Nat → List Nat) :
    ∀ (fuel c len index : Nat) (n_sent : Int) (calls : List Call),
      calls.length = c → (∀ i, i < c → 0 ≤ res i) →
      len < (fuel + 1) * H.REPORT_DATA_RX_TX_MAX →
      ∃ out, CP2110_write_loop H (scripted res resp) tx_buf fuel c len index n_sent calls
          = some out
        ∧ ∀ i, i < out.calls.length → res i < 0 →
            i + 1 = out.calls.length ∧ out.ret = res i := by
  intro fuel
  induction fuel with
  | zero =>
    intro c len index n_sent calls hc hpre hlen
    have hlt : ¬ H.REPORT_DATA_RX_TX_MAX ≤ len := by omega
    refine ⟨CP2110_write_tail (scripted res resp) tx_buf c len index n_sent calls, ?_,
      write_tail_negative tx_buf res resp c len index n_sent calls hc hpre⟩
    simp [CP2110_write_loop, hlt]
  | succ f ih =>
    intro c len index n_sent calls hc hpre hlen
    by_cases hge : H.REPORT_DATA_RX_TX_MAX ≤ len
    · have hres : ∀ d, ((scripted res resp).hid_write c d).1 = res c := fun _ => rfl
      have hdev : ∀ d, ((scripted res resp).hid_write c d).2 = c + 1 := fun _ => rfl
      by_cases hn : res c < 0
      · refine ⟨⟨res c, c + 1, calls ++ [Call.hid_write
          (write_report tx_buf index H.REPORT_DATA_RX_TX_MAX)]⟩, ?_, ?_⟩
        · simp only [CP2110_write_loop, hge, if_true, hres, hdev, hn]
        · simp only [List.length_append, List.length_singleton, hc]
          intro i hi hneg
          have hic : i = c := by
            by_contra hne
            have := hpre i (by omega)
            omega
          subst hic
          exact ⟨rfl, rfl⟩
      · by_cases hs : res c < (H.REPORT_DATA_RX_TX_MAX : Int) + 1
        · refine ⟨⟨n_sent + (res c - 1), c + 1, calls ++ [Call.hid_write
            (write_report tx_buf index H.REPORT_DATA_RX_TX_MAX)]⟩, ?_, ?_⟩
          · simp only [CP2110_write_loop, hge, if_true, hres, hdev, hn, if_false, hs]
          · simp only [List.length_append, List.length_singleton, hc]
            intro i hi hneg
            by_cases hic : i = c
            · subst hic; exact absurd hneg hn
            · have := hpre i (by omega)
              omega
        · obtain ⟨out, hout, hprop⟩ := ih (c + 1) (len - H.REPORT_DATA_RX_TX_MAX)
            (index + H.REPORT_DATA_RX_TX_MAX) (n_sent + (res c - 1))
            (calls ++ [Call.hid_write (write_report tx_buf index H.REPORT_DATA_RX_TX_MAX)])
            (by simp [hc])
            (fun i hi => by
              by_cases hic : i = c
              · subst hic; omega
              · exact hpre i (by omega))
            (by rw [Nat.succ_mul] at hlen; omega)
          refine ⟨out, ?_, hprop⟩
          simp only [CP2110_write_loop, hge, if_true, hres, hdev, hn, if_false, hs]
          exact hout
    · refine ⟨CP2110_write_tail (scripted res resp) tx_buf c len index n_sent calls, ?_,
        write_tail_negative tx_buf res resp c len index n_sent calls hc hpre⟩
      simp [CP2110_write_loop, hge]

theorem read_tail_negative (res : Nat → Int) (resp : Nat → List Nat)
    (c : Nat) (buf rx_buf : Mem) (len index : Nat) (n_read : Int) (calls : List Call)
    (copies : List (Nat × Nat))
    (hc : calls.length = c) (hpre : ∀ i, i < c → 0 ≤ res i) :
    ∀ i, i < (CP2110_read_tail (scripted res resp) c buf rx_buf len index n_read calls
          copies).calls.length →
      res i < 0 →
      i + 1 = (CP2110_read_tail (scripted res resp) c buf rx_buf len index n_read calls
          copies).calls.length
      ∧ (CP2110_read_tail (scripted res resp) c buf rx_buf len index n_read calls
          copies).ret = res i := by
  have hres : ∀ b n, ((scripted res resp).hid_read c b n).1 = res c := fun _ _ => rfl
  unfold CP2110_read_tail
  by_cases h0 : len = 0
  · simp only [ne_eq, h0, not_true_eq_false, if_false]
    intro i hi hneg
    have := hpre i (by omega)
    omega
  · by_cases hn : res c < 0
    · simp only [ne_eq, h0, not_false_eq_true, if_true, hres, hn, List.length_append,
        List.length_singleton, hc]
      intro i hi hneg
      have hic : i = c := by
        by_contra hne
        have := hpre i (by omega)
        omega
      subst hic
      exact ⟨rfl, rfl⟩
    · simp only [ne_eq, h0, not_false_eq_true, if_true, hres, hn, if_false, List.length_append,
        List.length_singleton, hc]
      intro i hi hneg
      by_cases hic : i = c
      · subst hic; exact absurd hneg hn
      · have := hpre i (by omega)
        omega

theorem read_loop_negative (H : Header) (res : Nat → Int) (resp : Nat → List Nat) :
    ∀ (fuel c : Nat) (buf rx_buf : Mem) (len index : Nat) (n_read : Int)
      (calls : List Call) (copies : List (Nat × Nat)),
      calls.length = c → (∀ i, i < c → 0 ≤ res i) →
      len < (fuel + 1) * H.REPORT_DATA_RX_TX_MAX →
      ∃ out, CP2110_read_loop H (scripted res resp) fuel c buf rx_buf len index n_read
          calls copies = some out
        ∧ ∀ i, i < out.calls.length → res i < 0 →
            i + 1 = out.calls.length ∧ out.ret = res i := by
  intro fuel
  induction fuel with
  | zero =>
    intro c buf rx_buf len index n_read calls copies hc hpre hlen
    have hlt : ¬ H.REPORT_DATA_RX_TX_MAX ≤ len := by omega
    refine ⟨CP2110_read_tail (scripted res resp) c buf rx_buf len index n_read calls copies,
      ?_, read_tail_negative res resp c buf rx_buf len index n_read calls copies hc hpre⟩
    simp [CP2110_read_loop, hlt]
  | succ f ih =>
    intro c buf rx_buf len index n_read calls copies hc hpre hlen
    by_cases hge : H.REPORT_DATA_RX_TX_MAX ≤ len
    · have hres : ∀ b n, ((scripted res resp).hid_read c b n).1 = res c := fun _ _ => rfl
      have hdev : ∀ b n, ((scripted res resp).hid_read c b n).2.2 = c + 1 := fun _ _ => rfl
      by_cases hn : res c < 0
      · simp only [CP2110_read_loop, hge, if_true, hres, hdev, hn]
        refine ⟨_, rfl, ?_⟩
        · simp only [List.length_append, List.length_singleton, hc]
          intro i hi hneg
          have hic : i = c := by
            by_contra hne
            have := hpre i (by omega)
            omega
          subst hic
          exact ⟨rfl, rfl⟩
      · by_cases hs : res c < (H.REPORT_DATA_RX_TX_MAX : Int)
        · simp only [CP2110_read_loop, hge, if_true, hres, hdev, hn, if_false, hs]
          refine ⟨_, rfl, ?_⟩
          · simp only [List.length_append, List.length_singleton, hc]
            intro i hi hneg
            by_cases hic : i = c
            · subst hic; exact absurd hneg hn
            · have := hpre i (by omega)
              omega
        · obtain ⟨out, hout, hprop⟩ := ih (c + 1)
            ((scripted res resp).hid_read c
              (buf.store 0 (H.REPORT_DATA_RX_TX_MAX % 256)) (H.REPORT_DATA_RX_TX_MAX + 1)).2.1
            (read_account (res c)
              ((scripted res resp).hid_read c
                (buf.store 0 (H.REPORT_DATA_RX_TX_MAX % 256))
                (H.REPORT_DATA_RX_TX_MAX + 1)).2.1 rx_buf index n_read copies).2.1
            (len - H.REPORT_DATA_RX_TX_MAX)
            (index + H.REPORT_DATA_RX_TX_MAX)
            (read_account (res c)
              ((scripted res resp).hid_read c
                (buf.store 0 (H.REPORT_DATA_RX_TX_MAX % 256))
                (H.REPORT_DATA_RX_TX_MAX + 1)).2.1 rx_buf index n_read copies).1
            (calls ++ [Call.hid_read ((buf.store 0 (H.REPORT_DATA_RX_TX_MAX % 256)).bytes
              (H.REPORT_DATA_RX_TX_MAX + 1))])
            (read_account (res c)
              ((scripted res resp).hid_read c
                (buf.store 0 (H.REPORT_DATA_RX_TX_MAX % 256))
                (H.REPORT_DATA_RX_TX_MAX + 1)).2.1 rx_buf index n_read copies).2.2
            (by simp [hc])
            (fun i hi => by
              by_cases hic : i = c
              · subst hic; omega
              · exact hpre i (by omega))
            (by rw [Nat.succ_mul] at hlen; omega)
          refine ⟨out, ?_, hprop⟩
          simp only [CP2110_read_loop, hge, if_true, hres, hdev, hn, if_false, hs]
          exact hout
    · refine ⟨CP2110_read_tail (scripted res resp) c buf rx_buf len index n_read calls copies,
        ?_, read_tail_negative res resp c buf rx_buf len index n_read calls copies hc hpre⟩
      simp [CP2110_read_loop, hge]

/-- C11: with a positive `REPORT_DATA_RX_TX_MAX` and any sequence of
transport results, `CP2110_write` and `CP2110_read` return, and a call that
got a negative result is the last call made and its result is the value
returned. -/
theorem negative_result_ends_transfer (H : Header) (tx_buf buf0 rx_buf : Mem)
    (res : Nat → Int) (resp : Nat → List Nat) (len : Nat)
    (hM0 : 0 < H.REPORT_DATA_RX_TX_MAX) :
    (∃ out, CP2110_write H (scripted res resp) 0 tx_buf len = some out
      ∧ ∀ i, i < out.calls.length → res i < 0 →
          i + 1 = out.calls.length ∧ out.ret = res i)
    ∧ (∃ out, CP2110_read H (scripted res resp) 0 buf0 rx_buf len = some out
      ∧ ∀ i, i < out.calls.length → res i < 0 →
          i + 1 = out.calls.length ∧ out.ret = res i) := by
  have hlen : len < (len + 1) * H.REPORT_DATA_RX_TX_MAX :=
    lt_of_lt_of_le (Nat.lt_succ_self len) (Nat.le_mul_of_pos_right (len + 1) hM0)
  exact ⟨write_loop_negative H tx_buf res resp len 0 len 0 0 [] rfl
      (fun i hi => absurd hi (Nat.not_lt_zero i)) hlen,
    read_loop_negative H res resp len 0 buf0 rx_buf len 0 0 [] [] rfl
      (fun i hi => absurd hi (Nat.not_lt_zero i)) hlen⟩

/-- Witness of C11 with `REPORT_DATA_RX_TX_MAX = 63`: in a write of 130
bytes whose second send returns -5, that send is the last call and -5 is
returned. -/
theorem negative_result_ends_transfer_witness :
    ∃ out, CP2110_write sampleHeader (scripted (fun i => if i = 1 then -5 else 64)
        (fun _ => [])) 0 (fun _ => 0) 130 = some out
      ∧ 1 + 1 = out.calls.length ∧ out.ret = -5 :=
  match (negative_result_ends_transfer sampleHeader (fun _ => 0) (fun _ => 0) (fun _ => 0)
      (fun i => if i = 1 then -5 else 64) (fun _ => []) 130 (by decide)).1 with
  | ⟨out, h1, h2⟩ =>
    ⟨out, h1, h2 1 (by
      have h : CP2110_write sampleHeader (scripted (fun i => if i = 1 then -5 else 64)
          (fun _ => [])) 0 (fun _ => 0) 130 = some ⟨-5, 2,
            [Call.hid_write (write_report (fun _ => 0) 0 63),
             Call.hid_write (write_report (fun _ => 0) 63 63)]⟩ := by rfl
      rw [h] at h1
      cases h1
      decide) (by decide)⟩

end CP2110
